import Mathlib

/-!
Shallow embedding of the crossref-preprint-matching repository:

* src/utils/calculate_precision_recall_f-scores.py — the offline evaluation
  tool (DOI key normalization of its two loaders, calculate_f_beta, and
  calculate_metrics).
* src/preprint_matching/preprint_match_data_files.py — the batch matching
  driver (extract_doi_from_url and the per-item loop of process_match_items
  with its item-level circuit breaker and its JSON/CSV output channels).

Python floats are embedded as exact rationals, Python dicts as association
lists (lookup = first entry with the key), Python sets as lists of their
elements.  External effects observed by the driver (json.loads outcomes,
the matching strategy's result, csv writerow failures) are part of the
per-item input data.
-/

unseal Rat.mul Rat.inv Rat.add Rat.sub

namespace CrossrefMatch

/-! ### Python string primitives (models of str methods used by the sources) -/

/-- Whitespace stripped by Python str.strip() (ASCII subset). -/
def isPyWhite (c : Char) : Bool :=
  c = ' ' || c = '\t' || c = '\n' || c = '\r' || c = '\x0b' || c = '\x0c'

def pyStripList (l : List Char) : List Char :=
  ((l.dropWhile isPyWhite).reverse.dropWhile isPyWhite).reverse

/-- Model of Python str.strip() with no argument. -/
def pyStrip (s : String) : String := ⟨pyStripList s.data⟩

/-- Model of Python str.lower() on the ASCII range (all DOI strings in the
sources are ASCII). -/
def pyCharLower (c : Char) : Char :=
  if 'A' ≤ c ∧ c ≤ 'Z' then Char.ofNat (c.toNat + 32) else c

def pyLower (s : String) : String := ⟨s.data.map pyCharLower⟩

/-- Model of the composition s.strip().lower(). -/
def pyStripLower (s : String) : String := pyLower (pyStrip s)

/-- Fuel-driven worker for Python str.replace: replaces all non-overlapping
occurrences of pat, scanning left to right. The fuel is the length of the
scanned list, which bounds the number of recursive calls. -/
def replaceAux (pat rep : List Char) : Nat → List Char → List Char
  | _, [] => []
  | 0, l => l
  | fuel + 1, c :: cs =>
    if pat ≠ [] ∧ (c :: cs).take pat.length = pat then
      rep ++ replaceAux pat rep fuel ((c :: cs).drop pat.length)
    else
      c :: replaceAux pat rep fuel cs

/-- Model of Python s.replace(pat, rep) (all sources call it with a
non-empty pattern). -/
def pyReplace (s pat rep : String) : String :=
  ⟨replaceAux pat.data rep.data s.data.length s.data⟩

/-- Model of Python s.startswith(pre). -/
def pyStartsWith (s pre : String) : Bool :=
  decide (s.data.take pre.data.length = pre.data)

/-! ### A computable linear order on strings (Python compares strings
lexicographically by code point; the Mathlib order on String is the same
order but its Decidable instance does not reduce in the kernel). -/

def charListLe : List Char → List Char → Bool
  | [], _ => true
  | _ :: _, [] => false
  | a :: as, b :: bs => if a < b then true else if b < a then false else charListLe as bs

def strLeB (a b : String) : Bool := charListLe a.data b.data

/-- The order on strings used to model Python sorted(). -/
def strLeR (a b : String) : Prop := strLeB a b = true

instance : DecidableRel strLeR := fun a b => inferInstanceAs (Decidable (_ = true))

instance : IsTotal String strLeR := by
  constructor
  intro a b
  cases a with | mk da =>
  cases b with | mk db =>
  show charListLe da db = true ∨ charListLe db da = true
  induction da generalizing db with
  | nil => left; rfl
  | cons c cs ih =>
    cases db with
    | nil => right; rfl
    | cons d ds =>
      simp only [charListLe]
      rcases lt_trichotomy c d with h | h | h
      · left; simp [h]
      · subst h
        simp only [lt_irrefl, if_false]
        exact ih ds
      · right; simp [h]

instance : IsTrans String strLeR := by
  constructor
  intro a b c
  cases a with | mk da =>
  cases b with | mk db =>
  cases c with | mk dc =>
  show charListLe da db = true → charListLe db dc = true → charListLe da dc = true
  induction da generalizing db dc with
  | nil => intro _ _; rfl
  | cons x xs ih =>
    cases db with
    | nil => intro h; exact absurd h (by simp [charListLe])
    | cons y ys =>
      cases dc with
      | nil => intro _ h; exact absurd h (by simp [charListLe])
      | cons z zs =>
        simp only [charListLe]
        intro h1 h2
        by_cases hxy : x < y
        · by_cases hyz : y < z
          · simp [lt_trans hxy hyz]
          · by_cases hzy : z < y
            · simp [hyz, hzy] at h2
            · have hyzeq : y = z := le_antisymm (not_lt.mp hzy) (not_lt.mp hyz)
              simp [hyzeq ▸ hxy]
        · by_cases hyx : y < x
          · simp [hxy, hyx] at h1
          · have hxyeq : x = y := le_antisymm (not_lt.mp hyx) (not_lt.mp hxy)
            subst hxyeq
            simp only [lt_irrefl, if_false] at h1 h2 ⊢
            by_cases hxz : x < z
            · simp [hxz]
            · by_cases hzx : z < x
              · simp [hxz, hzx] at h2
              · simp only [hxz, hzx, if_false] at h2 ⊢
                exact ih ys zs h1 h2

instance : IsAntisymm String strLeR := by
  constructor
  intro a b
  cases a with | mk da =>
  cases b with | mk db =>
  show charListLe da db = true → charListLe db da = true → String.mk da = String.mk db
  intro hab hba
  congr 1
  induction da generalizing db with
  | nil =>
    cases db with
    | nil => rfl
    | cons d ds => exact absurd hba (by simp [charListLe])
  | cons c cs ih =>
    cases db with
    | nil => exact absurd hab (by simp [charListLe])
    | cons d ds =>
      simp only [charListLe] at hab hba
      rcases lt_trichotomy c d with h | h | h
      · simp [h, asymm h] at hba
      · subst h
        simp only [lt_irrefl, if_false] at hab hba
        rw [ih ds hab hba]
      · simp [h, asymm h] at hab

/-! ### Digit rendering: model of the Python format f-string with .4f -/

def digitChar (n : Nat) : Char :=
  if n = 0 then '0' else if n = 1 then '1' else if n = 2 then '2'
  else if n = 3 then '3' else if n = 4 then '4' else if n = 5 then '5'
  else if n = 6 then '6' else if n = 7 then '7' else if n = 8 then '8' else '9'

def natDigitsAux : Nat → Nat → List Char
  | 0, _ => []
  | fuel + 1, n => if n < 10 then [digitChar n] else natDigitsAux fuel (n / 10) ++ [digitChar (n % 10)]

/-- Decimal digits of a natural number, most significant first. -/
def natDigits (n : Nat) : List Char := natDigitsAux (n + 1) n

/-- Four zero-padded decimal digits of m % 10000. -/
def frac4Digits (m : Nat) : List Char :=
  [digitChar (m / 1000 % 10), digitChar (m / 100 % 10), digitChar (m / 10 % 10), digitChar (m % 10)]

/-- Round to the nearest integer, ties to even (the rounding used by Python
float formatting, on the exact rational value). -/
def roundHalfEven (q : ℚ) : ℤ :=
  if q - ⌊q⌋ < 1 / 2 then ⌊q⌋
  else if q - ⌊q⌋ > 1 / 2 then ⌊q⌋ + 1
  else if ⌊q⌋ % 2 = 0 then ⌊q⌋ else ⌊q⌋ + 1

/-- Model of the Python f-string format with spec .4f applied to a number. -/
def formatFixed4 (q : ℚ) : String :=
  let n := roundHalfEven (q * 10000)
  let core := natDigits (n.natAbs / 10000) ++ '.' :: frac4Digits (n.natAbs % 10000)
  if n < 0 then ⟨'-' :: core⟩ else ⟨core⟩

def isFixed4Core (l : List Char) : Bool :=
  !(l.takeWhile Char.isDigit).isEmpty &&
    (match l.dropWhile Char.isDigit with
     | '.' :: f => decide (f.length = 4) && f.all Char.isDigit
     | _ => false)

/-- Recognizer for a fixed-point decimal with exactly four fractional
digits: an optional minus sign, at least one integer digit, a dot, and
exactly four digits. Such a string is a parseable number. -/
def isFixed4 (s : String) : Bool :=
  match s.data with
  | '-' :: rest => isFixed4Core rest
  | l => isFixed4Core l

/-! ### Evaluation tool: src/utils/calculate_precision_recall_f-scores.py -/

/-- Python dict lookup d.get(k) on an association-list model of a dict:
the first entry with the key. -/
def pyGet {β : Type} : List (String × β) → String → Option β
  | [], _ => none
  | kv :: t, k => if kv.1 = k then some kv.2 else pyGet t k

/-- Python bool() of a stored matched_doi value (None and the empty string
are falsy). -/
def predTruthy : Option String → Bool
  | some s => !(s == "")
  | none => false

/-- Python bool() of a dict.get result holding a set of reference DOIs
(absence and the empty set are falsy). -/
def refTruthy : Option (List String) → Bool
  | some v => !v.isEmpty
  | none => false

/-- Normalization applied by load_reference_from_json to a source DOI used
as a reference key (line 54): source_doi.strip().lower(). -/
def refInputKey (source_doi : String) : String := pyStripLower source_doi

/-- Normalization applied by load_results_from_json to an input_doi used as
a results key (line 98): key.strip().lower(). -/
def resultsKey (key : String) : String := pyStripLower key

/-- Normalization applied by load_reference_from_json to a DOI URL of a
reference output list (lines 62-64): strip the doi.org URL prefix and the
doi: prefix, strip whitespace, and lowercase on insertion into the set. -/
def refOutputKey (doi_url : String) : String :=
  pyLower (pyStrip (pyReplace (pyReplace doi_url "https://doi.org/" "") "doi:" ""))

/-- calculate_f_beta (lines 113-125). The ValueError raised for a
non-positive beta is modelled as the error branch of Except. -/
def calculate_f_beta (precision recall_q beta : ℚ) : Except String ℚ :=
  if precision = 0 ∧ recall_q = 0 then Except.ok 0
  else if beta ≤ 0 then Except.error "Beta must be a positive number."
  else
    let beta_sq := beta ^ 2
    let numerator := (1 + beta_sq) * (precision * recall_q)
    let denominator := beta_sq * precision + recall_q
    if denominator = 0 then Except.ok 0 else Except.ok (numerator / denominator)

deriving instance DecidableEq for Except

structure Metrics where
  TP : Nat
  FP : Nat
  FN : Nat
  Precision : ℚ
  Recall : ℚ
  F05 : Except String ℚ
  F1 : Except String ℚ
  F15 : Except String ℚ
  PositiveReferences : Nat
  PositivePredictions : Nat
deriving Repr, DecidableEq

structure DetailRecord where
  input_doi : String
  predicted_doi : String
  reference_doi : String
  status : String
deriving Repr, DecidableEq

/-- Accumulator of the loop of calculate_metrics (lines 129-175). -/
structure TallyState where
  tp : Nat
  fp : Nat
  fn : Nat
  positive_predictions : Nat
  detailed_results : List DetailRecord
deriving Repr, DecidableEq

/-- Python " | ".join(sorted(list(s))) on the list model of the set s. -/
def joinSorted (v : List String) : String :=
  String.intercalate " | " (List.insertionSort strLeR v)

/-- One iteration of the loop of calculate_metrics (lines 141-175), for one
element of the sorted key union. getPos and getTest are the dict lookups of
positive_references and test_map. -/
def stepKey (getPos : String → Option (List String))
    (getTest : String → Option (Option String))
    (st : TallyState) (input_doi : String) : TallyState :=
  let input_doi_norm := pyStripLower input_doi
  let predicted_match : Option String := (getTest input_doi_norm).bind id
  let is_positive_prediction : Bool := predTruthy predicted_match
  let correct_match_set : Option (List String) := getPos input_doi_norm
  let is_in_ref : Bool := refTruthy correct_match_set
  let predicted_str := predicted_match.getD ""
  let reference_str :=
    match correct_match_set with
    | some v => if v.isEmpty then "" else joinSorted v
    | none => ""
  if is_positive_prediction then
    if is_in_ref then
      if (correct_match_set.getD []).contains predicted_str then
        { st with tp := st.tp + 1, positive_predictions := st.positive_predictions + 1,
                  detailed_results := st.detailed_results ++
                    [⟨input_doi_norm, predicted_str, reference_str, "TP"⟩] }
      else
        { st with fp := st.fp + 1, positive_predictions := st.positive_predictions + 1,
                  detailed_results := st.detailed_results ++
                    [⟨input_doi_norm, predicted_str, reference_str, "FP"⟩] }
    else
      { st with fp := st.fp + 1, positive_predictions := st.positive_predictions + 1,
                detailed_results := st.detailed_results ++
                  [⟨input_doi_norm, predicted_str, reference_str, "FP"⟩] }
  else
    if is_in_ref then
      { st with fn := st.fn + 1,
                detailed_results := st.detailed_results ++
                  [⟨input_doi_norm, predicted_str, reference_str, "FN"⟩] }
    else st

/-- calculate_metrics (lines 128-197). The reference map is an association
list whose values model the Python sets of reference DOIs; the test map's
values model the stored matched_doi (None is stored for a falsy value). -/
def calculate_metrics (reference_map : List (String × List String))
    (test_map : List (String × Option String)) : Metrics × List DetailRecord :=
  let positive_references := reference_map.filter (fun kv => !kv.2.isEmpty)
  let num_positive_references := positive_references.length
  let all_input_dois :=
    List.insertionSort strLeR ((reference_map.map Prod.fst ++ test_map.map Prod.fst).dedup)
  let st := all_input_dois.foldl (stepKey (pyGet positive_references) (pyGet test_map)) ⟨0, 0, 0, 0, []⟩
  let precision : ℚ := if st.positive_predictions > 0 then (st.tp : ℚ) / (st.positive_predictions : ℚ) else 0
  let recall_q : ℚ := if num_positive_references > 0 then (st.tp : ℚ) / (num_positive_references : ℚ) else 0
  (⟨st.tp, st.fp, st.fn, precision, recall_q,
    calculate_f_beta precision recall_q (1 / 2),
    calculate_f_beta precision recall_q 1,
    calculate_f_beta precision recall_q (3 / 2),
    num_positive_references, st.positive_predictions⟩,
   st.detailed_results)

/-! ### Matching driver: src/preprint_matching/preprint_match_data_files.py -/

/-- Netloc and path of a URL, modelling urllib.parse.urlparse for the
scheme://host/path shapes consumed by extract_doi_from_url: the netloc is
what follows the first :// up to the next slash, the path is the rest; a
string without :// has an empty netloc and is its own path. -/
def splitSchemeAux : Nat → List Char → Option (List Char)
  | _, [] => none
  | 0, _ => none
  | fuel + 1, c :: cs =>
    if (c :: cs).take 3 = [':', '/', '/'] then some ((c :: cs).drop 3)
    else splitSchemeAux fuel cs

def urlparseNetlocPath (s : String) : String × String :=
  match splitSchemeAux s.data.length s.data with
  | some rest => (⟨rest.takeWhile (fun c => c ≠ '/')⟩, ⟨rest.dropWhile (fun c => c ≠ '/')⟩)
  | none => ("", s)

/-- extract_doi_from_url (lines 115-138). The argument is an Option so that
a Python None (or a non-string value) is representable as none. -/
def extract_doi_from_url (url_string : Option String) : Option String :=
  match url_string with
  | none => none
  | some s =>
    if s = "" then none
    else
      let doi_path? : Option String :=
        if pyStartsWith (pyLower s) "doi:" then some (pyStrip ⟨s.data.drop 4⟩)
        else
          let parsed := urlparseNetlocPath s
          if parsed.1 ≠ "" ∧ pyLower parsed.1 = "doi.org" then
            some ⟨parsed.2.data.dropWhile (fun c => c = '/')⟩
          else if pyStartsWith (pyStrip s) "10." then some (pyStrip s)
          else none
      match doi_path? with
      | none => none
      | some p =>
        let p := pyStrip p
        if p = "" then none else some p

/-- Normalization of the input DOI in process_match_items (line 240):
replace the doi.org URL prefix and the doi: prefix, then strip. -/
def normalizeInputDoi (doi : String) : String :=
  pyStrip (pyReplace (pyReplace doi "https://doi.org/" "") "doi:" "")

/-- The confidence value found in the first match dict: absent (None),
a number (int or float), or any other value, carried as its str() image. -/
inductive Confidence where
  | absent : Confidence
  | num : ℚ → Confidence
  | strv : String → Confidence
deriving Repr, DecidableEq

/-- The confidence string computed at lines 263-268. -/
def confidenceStr (c : Confidence) : String :=
  match c with
  | .num q => formatFixed4 q
  | .strv s => s
  | .absent => ""

/-- The fields of the first match dict read by the driver (lines 260-261). -/
structure FirstMatch where
  id : Option String
  confidence : Confidence
deriving Repr, DecidableEq

/-- The first element of a non-empty match list: a dict or not (line 259). -/
inductive MatchElem where
  | matchDict : FirstMatch → MatchElem
  | matchNonDict : MatchElem
deriving Repr, DecidableEq

/-- Outcome of matching_strategy.match observed by the driver (lines
251-285): None (critical failure), a non-empty list (only its first element
is read), or anything else (empty list or non-list), treated as no match. -/
inductive StrategyResult where
  | criticalFailure : StrategyResult
  | noMatch : StrategyResult
  | matchList : MatchElem → StrategyResult
deriving Repr, DecidableEq

/-- Outcome of json.loads on the item's input string (lines 233-248). -/
inductive ParseResult where
  | decodeError : ParseResult
  | parsedNonDict : ParseResult
  | parsedDict : Option String → ParseResult
deriving Repr, DecidableEq

/-- One dict item of the items list, together with the outcomes of the
external operations the driver performs on it: its input field (none for a
missing or falsy one), the json.loads outcome for the input string, the
strategy result for the input string, and whether the csv writerow call for
its output record raises. -/
structure DictItem where
  input : Option String
  parse : ParseResult
  strat : StrategyResult
  csv_write_fails : Bool
deriving Repr, DecidableEq

/-- An element of the items list: a dict or not (line 213). -/
inductive Item where
  | itemNonDict : Item
  | itemDict : DictItem → Item
deriving Repr, DecidableEq

/-- One output record (lines 288-292). -/
structure OutputRecord where
  input_doi : String
  matched_doi : String
  confidence : String
deriving Repr, DecidableEq

/-- The input_doi field written into the output record (line 289). -/
def recordInputDoi (input_doi_extracted : String) : String :=
  if pyStartsWith input_doi_extracted "N/A" then "" else input_doi_extracted

/-- The input_doi_extracted value after the parse stage (lines 235-244),
given the DOI field of the parsed dict (none for missing or falsy). -/
def inputDoiExtracted (doi : Option String) : String :=
  match doi with
  | none => "N/A_MISSING_DOI"
  | some d => if d = "" then "N/A_MISSING_DOI" else normalizeInputDoi d

/-- Result of the per-item pipeline (lines 216-296): the success flag, the
output record (none when the item failed), and whether matched_items was
incremented. -/
structure ItemOutcome where
  ok : Bool
  record : Option OutputRecord
  matched : Bool
deriving Repr, DecidableEq

/-- The per-item pipeline of process_match_items (lines 216-296). -/
def processItem (d : DictItem) : ItemOutcome :=
  match d.input with
  | none => ⟨false, none, false⟩
  | some input_json_string =>
    if input_json_string = "" then ⟨false, none, false⟩
    else
      match d.parse with
      | .decodeError => ⟨false, none, false⟩
      | .parsedNonDict => ⟨false, none, false⟩
      | .parsedDict doi =>
        let input_doi := inputDoiExtracted doi
        match d.strat with
        | .criticalFailure => ⟨false, none, false⟩
        | .noMatch => ⟨true, some ⟨recordInputDoi input_doi, "", ""⟩, false⟩
        | .matchList .matchNonDict => ⟨true, some ⟨recordInputDoi input_doi, "", ""⟩, false⟩
        | .matchList (.matchDict m) =>
          let match_confidence_str := confidenceStr m.confidence
          match m.id with
          | none => ⟨true, some ⟨recordInputDoi input_doi, "", ""⟩, false⟩
          | some url =>
            if url = "" then ⟨true, some ⟨recordInputDoi input_doi, "", ""⟩, false⟩
            else
              match extract_doi_from_url (some url) with
              | none => ⟨true, some ⟨recordInputDoi input_doi, "", ""⟩, true⟩
              | some matched_doi =>
                ⟨true, some ⟨recordInputDoi input_doi, matched_doi, match_confidence_str⟩, true⟩

inductive Format where
  | json : Format
  | csv : Format
deriving Repr, DecidableEq

/-- The arguments of process_match_items that the loop reads. -/
structure Args where
  format : Format
  max_consecutive_line_failures : Int
deriving Repr, DecidableEq

/-- The circuit-breaker condition of lines 309 and 326. -/
def breakerTripped (args : Args) (consec : Nat) : Bool :=
  args.max_consecutive_line_failures > 0 && (consec : Int) ≥ args.max_consecutive_line_failures

/-- The mutable state of the loop of process_match_items (lines 191-197),
plus the rows already written to the CSV file. -/
structure LoopState where
  processed_items : Nat
  matched_items : Nat
  items_with_errors : Nat
  consecutive_item_failures : Nat
  all_results_json : List OutputRecord
  csv_rows : List OutputRecord
  halted : Bool
deriving Repr, DecidableEq

def initState : LoopState := ⟨0, 0, 0, 0, [], [], false⟩

/-- One iteration of the for loop of process_match_items (lines 211-332):
the finally block updates the counters, the breaker is checked, and only
then is the record of a successful item appended to the JSON list or
written to the CSV file (a failing writerow counts as one more failure and
re-checks the breaker). A non-dict item is skipped by the continue at line
215 and changes nothing. -/
def stepItem (args : Args) (st : LoopState) : Item → LoopState
  | .itemNonDict => st
  | .itemDict d =>
    let oc := processItem d
    let st1 := { st with processed_items := st.processed_items + 1,
                         matched_items := st.matched_items + (if oc.matched then 1 else 0) }
    let st2 :=
      if oc.ok then { st1 with consecutive_item_failures := 0 }
      else { st1 with items_with_errors := st1.items_with_errors + 1,
                      consecutive_item_failures := st1.consecutive_item_failures + 1 }
    if breakerTripped args st2.consecutive_item_failures then { st2 with halted := true }
    else if oc.ok then
      match oc.record with
      | some r =>
        match args.format with
        | .json => { st2 with all_results_json := st2.all_results_json ++ [r] }
        | .csv =>
          if d.csv_write_fails then
            let st3 := { st2 with items_with_errors := st2.items_with_errors + 1,
                                  consecutive_item_failures := st2.consecutive_item_failures + 1 }
            if breakerTripped args st3.consecutive_item_failures then { st3 with halted := true }
            else st3
          else { st2 with csv_rows := st2.csv_rows ++ [r] }
      | none => st2
    else st2

/-- The for loop of process_match_items: the break statements are modelled
by stopping as soon as a step sets the halted flag. -/
def processLoop (args : Args) : LoopState → List Item → LoopState
  | st, [] => st
  | st, it :: rest =>
    let st1 := stepItem args st it
    if st1.halted then st1 else processLoop args st1 rest

/-- The observable result of process_match_items: the final loop state, the
list dumped into the JSON output file (none when nothing was dumped, i.e.
the format is CSV, the breaker halted the loop, or the dump failed), and
the boolean return value of line 362. -/
structure ProcessResult where
  state : LoopState
  json_file : Option (List OutputRecord)
  ok : Bool
deriving Repr, DecidableEq

/-- process_match_items (lines 186-362) on an items list. json_dump_fails
tells whether the final json.dump call raises (lines 336-341). -/
def process_match_items (items : List Item) (args : Args) (json_dump_fails : Bool) : ProcessResult :=
  let st := processLoop args initState items
  match args.format with
  | .json =>
    if st.halted then ⟨st, none, false⟩
    else if json_dump_fails then
      let st1 := { st with items_with_errors := st.items_with_errors + 1 }
      ⟨st1, none, decide (st1.items_with_errors = 0)⟩
    else ⟨st, some st.all_results_json, decide (st.items_with_errors = 0)⟩
  | .csv => ⟨st, none, decide (st.items_with_errors = 0) && !st.halted⟩

/-- The prediction calculate_metrics reads for a (already normalized) key:
the stored matched_doi of the test map, flattened. -/
def predictedOf (test_map : List (String × Option String)) (k : String) : Option String :=
  (pyGet test_map k).bind id

/-- Number of reference entries with a non-empty match set (the Recall
denominator of calculate_metrics). -/
def positiveRefCount (reference_map : List (String × List String)) : Nat :=
  (reference_map.filter (fun kv => !kv.2.isEmpty)).length

/-- Number of reference entries with a non-empty match set whose key has a
truthy prediction that is not in the set: wrong predictions on referenced
inputs, which calculate_metrics counts as FP. -/
def wrongPredOnRef (reference_map : List (String × List String))
    (test_map : List (String × Option String)) : Nat :=
  (reference_map.filter (fun kv => !kv.2.isEmpty && predTruthy (predictedOf test_map kv.1) &&
    !(kv.2.contains ((predictedOf test_map kv.1).getD "")))).length

/-- Classifier of a key as TP by the loop of calculate_metrics. -/
def cTP (pos : Option (List String)) (t : Option (Option String)) : Bool :=
  predTruthy (t.bind id) && refTruthy pos && ((pos.getD []).contains ((t.bind id).getD ""))

/-- Classifier of a key as FN by the loop of calculate_metrics. -/
def cFN (pos : Option (List String)) (t : Option (Option String)) : Bool :=
  !predTruthy (t.bind id) && refTruthy pos

/-- Classifier of a key as FP-on-a-referenced-input. -/
def cW (pos : Option (List String)) (t : Option (Option String)) : Bool :=
  predTruthy (t.bind id) && refTruthy pos && !((pos.getD []).contains ((t.bind id).getD ""))

/-- Whether the loop of calculate_metrics emits a detail record for a key. -/
def hasStatusKey (getPos : String → Option (List String))
    (getTest : String → Option (Option String)) (k : String) : Bool :=
  predTruthy ((getTest (pyStripLower k)).bind id) || refTruthy (getPos (pyStripLower k))

/-- An item of the items list whose per-item pipeline fails. -/
def FailsItem (b : Item) : Prop :=
  ∃ d, b = Item.itemDict d ∧ (processItem d).ok = false

/-- The input-error cases of the per-item pipeline: a missing or falsy
input field, a JSON decode error, or a payload that parses to a non-dict. -/
def InputErrorItem (d : DictItem) : Prop :=
  d.input = none ∨ d.input = some "" ∨ d.parse = ParseResult.decodeError ∨
    d.parse = ParseResult.parsedNonDict

/-- A concrete successful item: its match has id https://doi.org/10.1/x and
numeric confidence 0.9. -/
def exGoodItem : DictItem :=
  ⟨some "in1", ParseResult.parsedDict (some "10.1/p"),
   StrategyResult.matchList (MatchElem.matchDict ⟨some "https://doi.org/10.1/x", Confidence.num (9 / 10)⟩),
   false⟩

/-- A concrete failing item: its input field is missing. -/
def exBadItem : DictItem :=
  ⟨none, ParseResult.decodeError, StrategyResult.criticalFailure, false⟩

/-- A concrete item whose first match has a non-numeric confidence value
whose str() image is abc. -/
def exStrConfItem : DictItem :=
  ⟨some "in3", ParseResult.parsedDict (some "10.1/p"),
   StrategyResult.matchList (MatchElem.matchDict ⟨some "https://doi.org/10.1/x", Confidence.strv "abc"⟩),
   false⟩

/-- A concrete item whose first match has an id URL from which no DOI can
be extracted. -/
def exNoDoiUrlItem : DictItem :=
  ⟨some "in4", ParseResult.parsedDict (some "10.1/p"),
   StrategyResult.matchList (MatchElem.matchDict ⟨some "https://example.com/foo", Confidence.num (8 / 10)⟩),
   false⟩

/-- A concrete item whose parsed input dict lacks a DOI field and whose
strategy call returns no match. -/
def exMissingDoiItem : DictItem :=
  ⟨some "in2", ParseResult.parsedDict none, StrategyResult.noMatch, false⟩

/-! ### Theorems about the evaluation tool -/

/-- C6: on the reference map with 10.1/a mapped to the set containing
10.1/x and 10.1/b mapped to the empty set, and the results map sending
10.1/a to 10.1/x and 10.1/b to 10.1/z, calculate_metrics returns TP=1,
FP=1, FN=0, Precision=0.5, Recall=1.0, and F1 = 2/3 (approximately 0.667). -/
theorem c6_scenario_metrics :
    (calculate_metrics [("10.1/a", ["10.1/x"]), ("10.1/b", [])]
        [("10.1/a", some "10.1/x"), ("10.1/b", some "10.1/z")]).1.TP = 1 ∧
    (calculate_metrics [("10.1/a", ["10.1/x"]), ("10.1/b", [])]
        [("10.1/a", some "10.1/x"), ("10.1/b", some "10.1/z")]).1.FP = 1 ∧
    (calculate_metrics [("10.1/a", ["10.1/x"]), ("10.1/b", [])]
        [("10.1/a", some "10.1/x"), ("10.1/b", some "10.1/z")]).1.FN = 0 ∧
    (calculate_metrics [("10.1/a", ["10.1/x"]), ("10.1/b", [])]
        [("10.1/a", some "10.1/x"), ("10.1/b", some "10.1/z")]).1.Precision = 1 / 2 ∧
    (calculate_metrics [("10.1/a", ["10.1/x"]), ("10.1/b", [])]
        [("10.1/a", some "10.1/x"), ("10.1/b", some "10.1/z")]).1.Recall = 1 ∧
    (calculate_metrics [("10.1/a", ["10.1/x"]), ("10.1/b", [])]
        [("10.1/a", some "10.1/x"), ("10.1/b", some "10.1/z")]).1.F1 = Except.ok (2 / 3) := by
  decide

/-- C7: for every precision P, recall R and beta among 0.5, 1.0, 1.5,
calculate_f_beta returns the value (1+beta^2)*P*R / (beta^2*P + R)
(with the division-by-zero convention of rationals this also covers the
P=R=0 case), and returns 0 when P and R are both 0. -/
theorem c7_f_beta_formula (p r beta : ℚ) (hp : 0 ≤ p) (hr : 0 ≤ r)
    (hb : beta = 1 / 2 ∨ beta = 1 ∨ beta = 3 / 2) :
    calculate_f_beta p r beta = Except.ok ((1 + beta ^ 2) * (p * r) / (beta ^ 2 * p + r)) ∧
    (p = 0 → r = 0 → calculate_f_beta p r beta = Except.ok 0) := by
  have hbpos : 0 < beta := by rcases hb with rfl | rfl | rfl <;> norm_num
  constructor
  · simp only [calculate_f_beta]
    by_cases h0 : p = 0 ∧ r = 0
    · rw [if_pos h0]
      obtain ⟨rfl, rfl⟩ := h0
      simp
    · rw [if_neg h0, if_neg (not_le.mpr hbpos)]
      by_cases hden : beta ^ 2 * p + r = 0
      · rw [if_pos hden, hden, div_zero]
      · rw [if_neg hden]
  · intro h1 h2
    subst h1
    subst h2
    simp [calculate_f_beta]

/-- C7 witness: the theorem instantiated at P = 1/2, R = 1, beta = 1. -/
theorem c7_f_beta_formula_witness :
    calculate_f_beta (1 / 2) 1 1 = Except.ok ((1 + (1 : ℚ) ^ 2) * (1 / 2 * 1) / (1 ^ 2 * (1 / 2) + 1)) :=
  (c7_f_beta_formula (1 / 2) 1 1 (by norm_num) (by norm_num) (Or.inr (Or.inl rfl))).1

/-- C8 counterexample: as input keys (in either loader) the prefixed
spellings https://doi.org/10.1/ABC and doi:10.1/ABC do not normalize to
10.1/abc — the loaders only strip and lowercase keys, they do not remove
prefixes. -/
theorem c8_counterexample :
    refInputKey "https://doi.org/10.1/ABC" ≠ "10.1/abc" ∧
    resultsKey "https://doi.org/10.1/ABC" ≠ "10.1/abc" ∧
    refInputKey "doi:10.1/ABC" ≠ "10.1/abc" ∧
    resultsKey "doi:10.1/ABC" ≠ "10.1/abc" := by
  decide

/-- C8 amended: the three spellings https://doi.org/10.1/ABC, doi:10.1/ABC
and 10.1/ABC all normalize to 10.1/abc only for DOIs of the reference
output lists; input keys of both loaders are normalized by strip and
lowercase alone, so the plain spelling maps to 10.1/abc while the prefixed
spellings keep their prefixes (lowercased). -/
theorem c8_amended_normalization :
    refOutputKey "https://doi.org/10.1/ABC" = "10.1/abc" ∧
    refOutputKey "doi:10.1/ABC" = "10.1/abc" ∧
    refOutputKey "10.1/ABC" = "10.1/abc" ∧
    refInputKey "10.1/ABC" = "10.1/abc" ∧
    resultsKey "10.1/ABC" = "10.1/abc" ∧
    refInputKey "https://doi.org/10.1/ABC" = "https://doi.org/10.1/abc" ∧
    resultsKey "https://doi.org/10.1/ABC" = "https://doi.org/10.1/abc" ∧
    refInputKey "doi:10.1/ABC" = "doi:10.1/abc" ∧
    resultsKey "doi:10.1/ABC" = "doi:10.1/abc" := by
  decide

/-! ### Helper lemmas about the driver -/

theorem processItem_fail_shape (d : DictItem) (h : (processItem d).ok = false) :
    processItem d = ⟨false, none, false⟩ := by
  obtain ⟨i, p, s, w⟩ := d
  cases i with
  | none => rfl
  | some str =>
    by_cases hs : str = ""
    · subst hs; simp [processItem]
    · cases p with
      | decodeError => simp [processItem, hs]
      | parsedNonDict => simp [processItem, hs]
      | parsedDict doi =>
        cases s with
        | criticalFailure => simp [processItem, hs]
        | noMatch => simp [processItem, hs] at h
        | matchList e =>
          cases e with
          | matchNonDict => simp [processItem, hs] at h
          | matchDict m =>
            cases hm : m.id with
            | none => simp [processItem, hs, hm] at h
            | some url =>
              by_cases hu : url = ""
              · simp [processItem, hs, hm, hu] at h
              · cases hx : extract_doi_from_url (some url) with
                | none => simp [processItem, hs, hm, hu, hx] at h
                | some doi2 => simp [processItem, hs, hm, hu, hx] at h

theorem processItem_ok_record (d : DictItem) (h : (processItem d).ok = true) :
    ∃ r, (processItem d).record = some r := by
  obtain ⟨i, p, s, w⟩ := d
  cases i with
  | none => simp [processItem] at h
  | some str =>
    by_cases hs : str = ""
    · simp [processItem, hs] at h
    · cases p with
      | decodeError => simp [processItem, hs] at h
      | parsedNonDict => simp [processItem, hs] at h
      | parsedDict doi =>
        cases s with
        | criticalFailure => simp [processItem, hs] at h
        | noMatch =>
          exact ⟨⟨recordInputDoi (inputDoiExtracted doi), "", ""⟩, by simp [processItem, hs]⟩
        | matchList e =>
          cases e with
          | matchNonDict =>
            exact ⟨⟨recordInputDoi (inputDoiExtracted doi), "", ""⟩, by simp [processItem, hs]⟩
          | matchDict m =>
            cases hm : m.id with
            | none =>
              exact ⟨⟨recordInputDoi (inputDoiExtracted doi), "", ""⟩, by simp [processItem, hs, hm]⟩
            | some url =>
              by_cases hu : url = ""
              · exact ⟨⟨recordInputDoi (inputDoiExtracted doi), "", ""⟩,
                  by simp [processItem, hs, hm, hu]⟩
              · cases hx : extract_doi_from_url (some url) with
                | none =>
                  exact ⟨⟨recordInputDoi (inputDoiExtracted doi), "", ""⟩,
                    by simp [processItem, hs, hm, hu, hx]⟩
                | some doi2 =>
                  exact ⟨⟨recordInputDoi (inputDoiExtracted doi), doi2, confidenceStr m.confidence⟩,
                    by simp [processItem, hs, hm, hu, hx]⟩

theorem extract_ne_empty (u : Option String) (p : String)
    (h : extract_doi_from_url u = some p) : p ≠ "" := by
  cases u with
  | none => simp [extract_doi_from_url] at h
  | some s =>
    by_cases hs : s = ""
    · simp [extract_doi_from_url, hs] at h
    · simp only [extract_doi_from_url, hs, if_false] at h
      split at h
      · simp at h
      · split at h
        · simp at h
        · next hq =>
          rw [Option.some.injEq] at h
          rw [← h]
          exact hq

theorem breakerTripped_zero (args : Args) : breakerTripped args 0 = false := by
  simp only [breakerTripped]
  by_cases h : args.max_consecutive_line_failures > 0
  · have : ¬((0 : Nat) : Int) ≥ args.max_consecutive_line_failures := by
      push_cast
      omega
    simp [this]
  · simp [h]

theorem stepItem_nonDict (args : Args) (st : LoopState) :
    stepItem args st Item.itemNonDict = st := rfl

theorem stepItem_fail_fields (args : Args) (st : LoopState) (d : DictItem)
    (h : (processItem d).ok = false) :
    stepItem args st (Item.itemDict d) =
      (if breakerTripped args (st.consecutive_item_failures + 1) then
        { st with processed_items := st.processed_items + 1,
                  items_with_errors := st.items_with_errors + 1,
                  consecutive_item_failures := st.consecutive_item_failures + 1,
                  halted := true }
      else
        { st with processed_items := st.processed_items + 1,
                  items_with_errors := st.items_with_errors + 1,
                  consecutive_item_failures := st.consecutive_item_failures + 1 }) := by
  have hshape := processItem_fail_shape d h
  simp only [stepItem, hshape]
  split <;> simp_all

theorem stepItem_ok_fields (args : Args) (st : LoopState) (d : DictItem)
    (h : (processItem d).ok = true)
    (hw : args.format = Format.json ∨ d.csv_write_fails = false) :
    (stepItem args st (Item.itemDict d)).consecutive_item_failures = 0 ∧
    (stepItem args st (Item.itemDict d)).halted = st.halted ∧
    (stepItem args st (Item.itemDict d)).items_with_errors = st.items_with_errors := by
  obtain ⟨r, hr⟩ := processItem_ok_record d h
  cases hf : args.format with
  | json => simp [stepItem, h, hr, breakerTripped_zero, hf]
  | csv =>
    have hcsv : d.csv_write_fails = false := by
      rcases hw with hj | hc
      · rw [hf] at hj; exact absurd hj (by simp)
      · exact hc
    simp [stepItem, h, hr, breakerTripped_zero, hf, hcsv]

theorem stepItem_channels (args : Args) (st : LoopState) (it : Item) :
    ((stepItem args st it).csv_rows = st.csv_rows ∧
      (stepItem args st it).all_results_json = st.all_results_json) ∨
    (∃ d r, it = Item.itemDict d ∧ (processItem d).record = some r ∧
      (((stepItem args st it).csv_rows = st.csv_rows ++ [r] ∧
          (stepItem args st it).all_results_json = st.all_results_json) ∨
       ((stepItem args st it).csv_rows = st.csv_rows ∧
          (stepItem args st it).all_results_json = st.all_results_json ++ [r]))) := by
  cases it with
  | itemNonDict => exact Or.inl ⟨rfl, rfl⟩
  | itemDict d =>
    by_cases hok : (processItem d).ok = true
    · obtain ⟨r, hr⟩ := processItem_ok_record d hok
      cases hf : args.format with
      | json =>
        refine Or.inr ⟨d, r, rfl, hr, Or.inr ?_⟩
        simp [stepItem, hok, hr, breakerTripped_zero, hf]
      | csv =>
        by_cases hcsv : d.csv_write_fails
        · refine Or.inl ?_
          simp only [stepItem, hok, hr, hf, hcsv]
          split_ifs <;> simp_all
        · refine Or.inr ⟨d, r, rfl, hr, Or.inl ?_⟩
          simp [stepItem, hok, hr, breakerTripped_zero, hf, hcsv]
    · rw [stepItem_fail_fields args st d (by simpa using hok)]
      refine Or.inl ?_
      split <;> exact ⟨rfl, rfl⟩

theorem stepItem_csv_mem (args : Args) (st : LoopState) (it : Item) (r : OutputRecord)
    (hr : r ∈ (stepItem args st it).csv_rows) :
    r ∈ st.csv_rows ∨ ∃ d, it = Item.itemDict d ∧ (processItem d).record = some r := by
  rcases stepItem_channels args st it with ⟨hc, _⟩ | ⟨d, r2, hit, hrec, hch⟩
  · rw [hc] at hr; exact Or.inl hr
  · rcases hch with ⟨hc, _⟩ | ⟨hc, _⟩ <;> rw [hc] at hr
    · rcases List.mem_append.mp hr with h | h
      · exact Or.inl h
      · rw [List.mem_singleton] at h
        subst h
        exact Or.inr ⟨d, hit, hrec⟩
    · exact Or.inl hr

theorem stepItem_json_mem (args : Args) (st : LoopState) (it : Item) (r : OutputRecord)
    (hr : r ∈ (stepItem args st it).all_results_json) :
    r ∈ st.all_results_json ∨ ∃ d, it = Item.itemDict d ∧ (processItem d).record = some r := by
  rcases stepItem_channels args st it with ⟨_, hj⟩ | ⟨d, r2, hit, hrec, hch⟩
  · rw [hj] at hr; exact Or.inl hr
  · rcases hch with ⟨_, hj⟩ | ⟨_, hj⟩ <;> rw [hj] at hr
    · exact Or.inl hr
    · rcases List.mem_append.mp hr with h | h
      · exact Or.inl h
      · rw [List.mem_singleton] at h
        subst h
        exact Or.inr ⟨d, hit, hrec⟩

theorem stepItem_csv_append (args : Args) (st : LoopState) (it : Item) :
    ∃ t, (stepItem args st it).csv_rows = st.csv_rows ++ t := by
  rcases stepItem_channels args st it with ⟨hc, _⟩ | ⟨d, r2, _, _, hch⟩
  · exact ⟨[], by simp [hc]⟩
  · rcases hch with ⟨hc, _⟩ | ⟨hc, _⟩
    · exact ⟨[r2], hc⟩
    · exact ⟨[], by simp [hc]⟩

theorem stepItem_json_append (args : Args) (st : LoopState) (it : Item) :
    ∃ t, (stepItem args st it).all_results_json = st.all_results_json ++ t := by
  rcases stepItem_channels args st it with ⟨_, hj⟩ | ⟨d, r2, _, _, hch⟩
  · exact ⟨[], by simp [hj]⟩
  · rcases hch with ⟨_, hj⟩ | ⟨_, hj⟩
    · exact ⟨[], by simp [hj]⟩
    · exact ⟨[r2], hj⟩

theorem processLoop_channels (args : Args) (items : List Item) : ∀ st : LoopState,
    (∃ t, (processLoop args st items).csv_rows = st.csv_rows ++ t) ∧
    (∃ t, (processLoop args st items).all_results_json = st.all_results_json ++ t) ∧
    (∀ r, r ∈ (processLoop args st items).csv_rows → r ∈ st.csv_rows ∨
       ∃ d, Item.itemDict d ∈ items ∧ (processItem d).record = some r) ∧
    (∀ r, r ∈ (processLoop args st items).all_results_json → r ∈ st.all_results_json ∨
       ∃ d, Item.itemDict d ∈ items ∧ (processItem d).record = some r) := by
  induction items with
  | nil =>
    intro st
    exact ⟨⟨[], by simp [processLoop]⟩, ⟨[], by simp [processLoop]⟩,
      fun r hr => Or.inl hr, fun r hr => Or.inl hr⟩
  | cons it rest ih =>
    intro st
    simp only [processLoop]
    by_cases hh : (stepItem args st it).halted = true
    · rw [if_pos hh]
      refine ⟨stepItem_csv_append args st it, stepItem_json_append args st it, ?_, ?_⟩
      · intro r hr
        rcases stepItem_csv_mem args st it r hr with h | ⟨d, hit, hrec⟩
        · exact Or.inl h
        · exact Or.inr ⟨d, by simp [hit], hrec⟩
      · intro r hr
        rcases stepItem_json_mem args st it r hr with h | ⟨d, hit, hrec⟩
        · exact Or.inl h
        · exact Or.inr ⟨d, by simp [hit], hrec⟩
    · rw [if_neg hh]
      obtain ⟨⟨t1, ht1⟩, ⟨t2, ht2⟩, hm1, hm2⟩ := ih (stepItem args st it)
      obtain ⟨s1, hs1⟩ := stepItem_csv_append args st it
      obtain ⟨s2, hs2⟩ := stepItem_json_append args st it
      refine ⟨⟨s1 ++ t1, by rw [ht1, hs1, List.append_assoc]⟩,
              ⟨s2 ++ t2, by rw [ht2, hs2, List.append_assoc]⟩, ?_, ?_⟩
      · intro r hr
        rcases hm1 r hr with h1 | ⟨d, hd, hrec⟩
        · rcases stepItem_csv_mem args st it r h1 with h2 | ⟨d, hit, hrec⟩
          · exact Or.inl h2
          · exact Or.inr ⟨d, by simp [hit], hrec⟩
        · exact Or.inr ⟨d, by simp [hd], hrec⟩
      · intro r hr
        rcases hm2 r hr with h1 | ⟨d, hd, hrec⟩
        · rcases stepItem_json_mem args st it r h1 with h2 | ⟨d, hit, hrec⟩
          · exact Or.inl h2
          · exact Or.inr ⟨d, by simp [hit], hrec⟩
        · exact Or.inr ⟨d, by simp [hd], hrec⟩

theorem processItem_inputError (d : DictItem) (h : InputErrorItem d) :
    processItem d = ⟨false, none, false⟩ := by
  rcases h with h | h | h | h
  · simp [processItem, h]
  · simp [processItem, h]
  · cases hi : d.input with
    | none => simp [processItem, hi]
    | some str =>
      by_cases hs : str = ""
      · simp [processItem, hi, hs]
      · simp [processItem, hi, hs, h]
  · cases hi : d.input with
    | none => simp [processItem, hi]
    | some str =>
      by_cases hs : str = ""
      · simp [processItem, hi, hs]
      · simp [processItem, hi, hs, h]

theorem processLoop_append (args : Args) (l1 l2 : List Item) : ∀ st : LoopState,
    st.halted = false →
    processLoop args st (l1 ++ l2) =
      (if (processLoop args st l1).halted = true then processLoop args st l1
       else processLoop args (processLoop args st l1) l2) := by
  induction l1 with
  | nil =>
    intro st hst
    simp only [List.nil_append, processLoop]
    rw [if_neg (by rw [hst]; simp)]
  | cons it t ih =>
    intro st hst
    by_cases h1 : (stepItem args st it).halted = true
    · have hL : processLoop args st (it :: t) = stepItem args st it := by
        simp only [processLoop]
        rw [if_pos h1]
      have hL2 : processLoop args st ((it :: t) ++ l2) = stepItem args st it := by
        simp only [List.cons_append, processLoop]
        rw [if_pos h1]
      rw [hL2, hL, if_pos h1]
    · have h1' : (stepItem args st it).halted = false := by simpa using h1
      have hL : processLoop args st (it :: t) = processLoop args (stepItem args st it) t := by
        simp only [processLoop]
        rw [if_neg h1]
      have hL2 : processLoop args st ((it :: t) ++ l2) =
          processLoop args (stepItem args st it) (t ++ l2) := by
        simp only [List.cons_append, processLoop]
        rw [if_neg h1]
        rfl
      rw [hL2, hL]
      exact ih (stepItem args st it) h1'

theorem process_ok_false_of_halted (items : List Item) (args : Args) (dmp : Bool)
    (h : (processLoop args initState items).halted = true) :
    (process_match_items items args dmp).ok = false := by
  cases hf : args.format with
  | json => simp [process_match_items, hf, h]
  | csv => simp [process_match_items, hf, h]

theorem processLoop_fail_run (args : Args) (k : Nat) (hk : 0 < k)
    (hmax : args.max_consecutive_line_failures = (k : Int)) :
    ∀ (bads : List Item) (st : LoopState), bads ≠ [] →
      st.consecutive_item_failures + bads.length = k →
      (∀ b ∈ bads, FailsItem b) → st.halted = false →
      ∀ rest : List Item,
      processLoop args st (bads ++ rest) = processLoop args st bads ∧
      (processLoop args st bads).halted = true ∧
      (processLoop args st bads).processed_items = st.processed_items + bads.length ∧
      (processLoop args st bads).all_results_json = st.all_results_json ∧
      (processLoop args st bads).csv_rows = st.csv_rows ∧
      (processLoop args st bads).items_with_errors = st.items_with_errors + bads.length := by
  intro bads
  induction bads with
  | nil => intro st h; exact absurd rfl h
  | cons b t ih =>
    intro st _ hlen hfail hhalt rest
    obtain ⟨d, hb, hdok⟩ := hfail b (by simp)
    subst hb
    have hstep := stepItem_fail_fields args st d hdok
    cases t with
    | nil =>
      have h1 : st.consecutive_item_failures + 1 = k := by simpa using hlen
      have htrip : breakerTripped args (st.consecutive_item_failures + 1) = true := by
        simp only [breakerTripped, hmax, Bool.and_eq_true, decide_eq_true_eq]
        omega
      have hA : stepItem args st (Item.itemDict d) =
          { st with processed_items := st.processed_items + 1,
                    items_with_errors := st.items_with_errors + 1,
                    consecutive_item_failures := st.consecutive_item_failures + 1,
                    halted := true } := by rw [hstep, if_pos htrip]
      refine ⟨?_, ?_, ?_, ?_, ?_, ?_⟩ <;> simp [processLoop, hA]
    | cons b2 t2 =>
      have h1 : st.consecutive_item_failures + 1 < k := by
        simp only [List.length_cons] at hlen
        omega
      have hnotrip : breakerTripped args (st.consecutive_item_failures + 1) = false := by
        simp only [breakerTripped, hmax]
        rw [Bool.and_eq_false_eq_eq_false_or_eq_false]
        right
        rw [decide_eq_false_iff_not]
        omega
      have hB : stepItem args st (Item.itemDict d) =
          { st with processed_items := st.processed_items + 1,
                    items_with_errors := st.items_with_errors + 1,
                    consecutive_item_failures := st.consecutive_item_failures + 1 } := by
        rw [hstep, if_neg (by rw [hnotrip]; simp)]
      have hBhalt : (stepItem args st (Item.itemDict d)).halted = false := by rw [hB]; exact hhalt
      have hlen2 : (stepItem args st (Item.itemDict d)).consecutive_item_failures +
          (b2 :: t2).length = k := by
        rw [hB]
        show st.consecutive_item_failures + 1 + (b2 :: t2).length = k
        simp only [List.length_cons] at hlen ⊢
        omega
      have ih' := ih (stepItem args st (Item.itemDict d)) (by simp) hlen2
        (fun x hx => hfail x (List.mem_cons_of_mem _ hx)) hBhalt rest
      obtain ⟨e1, e2, e3, e4, e5, e6⟩ := ih'
      have hL1 : processLoop args st ((Item.itemDict d :: b2 :: t2) ++ rest) =
          processLoop args (stepItem args st (Item.itemDict d)) ((b2 :: t2) ++ rest) := by
        simp only [List.cons_append, processLoop]
        rw [if_neg (by rw [hBhalt]; simp)]
      have hL2 : processLoop args st (Item.itemDict d :: b2 :: t2) =
          processLoop args (stepItem args st (Item.itemDict d)) (b2 :: t2) := by
        simp only [processLoop]
        rw [if_neg (by rw [hBhalt]; simp)]
      refine ⟨?_, ?_, ?_, ?_, ?_, ?_⟩
      · rw [hL1, hL2, e1]
      · rw [hL2]; exact e2
      · rw [hL2, e3, hB]; simp only [List.length_cons]; omega
      · rw [hL2, e4, hB]
      · rw [hL2, e5, hB]
      · rw [hL2, e6, hB]; simp only [List.length_cons]; omega

/-! ### Claim theorems about the driver -/

theorem recordInputDoi_missing : recordInputDoi (inputDoiExtracted none) = "" := by decide

/-- C2: with a positive threshold k, after k consecutive item failures the
loop halts immediately: the remaining items are never processed (the run on
the failing block followed by any remainder equals the run on the failing
block alone), exactly the k failing items were processed, no output was
produced for them, process_match_items reports the file failed, and any
successful item resets the consecutive-failure counter to 0. -/
theorem c2_consecutive_failure_breaker :
    (∀ (args : Args) (k : Nat) (dmp : Bool) (pre bads rest : List Item) (st : LoopState),
      args.max_consecutive_line_failures = (k : Int) → 0 < k →
      bads.length = k → (∀ b ∈ bads, FailsItem b) →
      processLoop args initState pre = st → st.halted = false →
      st.consecutive_item_failures = 0 →
      processLoop args st (bads ++ rest) = processLoop args st bads ∧
      (processLoop args st bads).halted = true ∧
      (processLoop args st bads).processed_items = st.processed_items + k ∧
      (processLoop args st bads).all_results_json = st.all_results_json ∧
      (processLoop args st bads).csv_rows = st.csv_rows ∧
      (process_match_items (pre ++ (bads ++ rest)) args dmp).ok = false) ∧
    (∀ (args : Args) (st : LoopState) (d : DictItem),
      (processItem d).ok = true → (args.format = Format.json ∨ d.csv_write_fails = false) →
      (stepItem args st (Item.itemDict d)).consecutive_item_failures = 0) := by
  constructor
  · intro args k dmp pre bads rest st hmax hk hlen hfail hpre hhalt hconsec
    have hbadsne : bads ≠ [] := by
      intro h
      rw [h] at hlen
      simp at hlen
      omega
    obtain ⟨e1, e2, e3, e4, e5, _⟩ :=
      processLoop_fail_run args k hk hmax bads st hbadsne (by omega) hfail hhalt rest
    refine ⟨e1, e2, by rw [e3, hlen], e4, e5, ?_⟩
    apply process_ok_false_of_halted
    rw [processLoop_append args pre (bads ++ rest) initState rfl, hpre,
      if_neg (by rw [hhalt]; simp), e1]
    exact e2
  · intro args st d hok hw
    exact (stepItem_ok_fields args st d hok hw).1

/-- C2 witness: the theorem instantiated at threshold 2 with two failing
items followed by a good item, and the reset part at a good item. -/
theorem c2_consecutive_failure_breaker_witness :
    processLoop ⟨Format.json, 2⟩ initState
        ([Item.itemDict exBadItem, Item.itemDict exBadItem] ++ [Item.itemDict exGoodItem]) =
      processLoop ⟨Format.json, 2⟩ initState [Item.itemDict exBadItem, Item.itemDict exBadItem] ∧
    (processLoop ⟨Format.json, 2⟩ initState
        [Item.itemDict exBadItem, Item.itemDict exBadItem]).halted = true ∧
    (process_match_items
        ([] ++ ([Item.itemDict exBadItem, Item.itemDict exBadItem] ++ [Item.itemDict exGoodItem]))
        ⟨Format.json, 2⟩ false).ok = false ∧
    (stepItem ⟨Format.json, 2⟩ initState (Item.itemDict exGoodItem)).consecutive_item_failures = 0 := by
  have hfail : ∀ b ∈ [Item.itemDict exBadItem, Item.itemDict exBadItem], FailsItem b := by
    intro b hb
    simp only [List.mem_cons, List.not_mem_nil, or_false] at hb
    rcases hb with rfl | rfl <;> exact ⟨exBadItem, rfl, by decide⟩
  obtain ⟨e1, e2, _, _, _, e6⟩ := c2_consecutive_failure_breaker.1 ⟨Format.json, 2⟩ 2 false []
    [Item.itemDict exBadItem, Item.itemDict exBadItem] [Item.itemDict exGoodItem] initState
    (by decide) (by decide) (by decide) hfail rfl rfl rfl
  exact ⟨e1, e2, e6,
    c2_consecutive_failure_breaker.2 ⟨Format.json, 2⟩ initState exGoodItem (by decide) (Or.inl rfl)⟩

/-- C3 counterexample: a JSON-format run where the first item succeeds
(producing a record) and the second trips the breaker; the collected record
is in the in-memory list but nothing is written to the JSON output file
(json_file = none), so the earlier record is not preserved in the file. -/
theorem c3_counterexample :
    process_match_items [Item.itemDict exGoodItem, Item.itemDict exBadItem] ⟨Format.json, 1⟩ false =
      ⟨⟨2, 1, 1, 1, [⟨"10.1/p", "10.1/x", "0.9000"⟩], [], true⟩, none, false⟩ := by
  decide

/-- C3 amended: when the breaker trips, rows already written to the CSV
file are preserved (the CSV channel is append-only), but in the JSON format
the collected records are not written at all: the dump is skipped and the
output file is left without them. -/
theorem c3_amended_partial_output :
    (∀ (args : Args) (st : LoopState) (items : List Item),
      ∃ t, (processLoop args st items).csv_rows = st.csv_rows ++ t) ∧
    (∀ (args : Args) (items : List Item) (dmp : Bool),
      args.format = Format.json → (processLoop args initState items).halted = true →
      (process_match_items items args dmp).json_file = none) := by
  constructor
  · intro args st items
    exact (processLoop_channels args items st).1
  · intro args items dmp hf hh
    simp [process_match_items, hf, hh]

/-- C3 witness: the amended theorem instantiated at a CSV run and at the
halted JSON run of the counterexample. -/
theorem c3_amended_partial_output_witness :
    (∃ t, (processLoop ⟨Format.csv, 1⟩ initState
        [Item.itemDict exGoodItem, Item.itemDict exBadItem]).csv_rows = [] ++ t) ∧
    (process_match_items [Item.itemDict exGoodItem, Item.itemDict exBadItem]
        ⟨Format.json, 1⟩ false).json_file = none := by
  refine ⟨?_, ?_⟩
  · exact c3_amended_partial_output.1 ⟨Format.csv, 1⟩ initState
      [Item.itemDict exGoodItem, Item.itemDict exBadItem]
  · exact c3_amended_partial_output.2 ⟨Format.json, 1⟩
      [Item.itemDict exGoodItem, Item.itemDict exBadItem] false rfl (by decide)

/-- C4 counterexample: a non-dict item is skipped silently — the run on a
single non-dict item leaves the state untouched (no unmatched record, no
counter increment); an item with a missing input field is counted as a
failure but emits no output record at all; and an item whose input merely
lacks the DOI field is not a failure — it succeeds and emits a record. -/
theorem c4_counterexample :
    process_match_items [Item.itemNonDict] ⟨Format.json, 10⟩ false = ⟨initState, some [], true⟩ ∧
    process_match_items [Item.itemDict exBadItem] ⟨Format.json, 10⟩ false =
      ⟨⟨1, 0, 1, 1, [], [], false⟩, some [], false⟩ ∧
    processItem exMissingDoiItem = ⟨true, some ⟨"", "", ""⟩, false⟩ := by
  decide

/-- C4 amended: a non-dict item is skipped silently (no record, no counter
change, not even counted as processed); a missing or falsy input field, a
JSON decode error, or a non-dict payload makes the item a failure — both
counters increment, no output record is emitted, and processing halts only
through the breaker threshold; a missing DOI alone is not an input failure:
the item proceeds, and when it succeeds its record has an empty input_doi. -/
theorem c4_amended_input_errors :
    (∀ (args : Args) (st : LoopState), stepItem args st Item.itemNonDict = st) ∧
    (∀ (args : Args) (st : LoopState) (d : DictItem), InputErrorItem d →
      (stepItem args st (Item.itemDict d)).processed_items = st.processed_items + 1 ∧
      (stepItem args st (Item.itemDict d)).items_with_errors = st.items_with_errors + 1 ∧
      (stepItem args st (Item.itemDict d)).consecutive_item_failures =
        st.consecutive_item_failures + 1 ∧
      (stepItem args st (Item.itemDict d)).all_results_json = st.all_results_json ∧
      (stepItem args st (Item.itemDict d)).csv_rows = st.csv_rows ∧
      ((stepItem args st (Item.itemDict d)).halted = true ↔
        (st.halted = true ∨ breakerTripped args (st.consecutive_item_failures + 1) = true))) ∧
    (∀ (d : DictItem) (s : String), d.input = some s → s ≠ "" →
      d.parse = ParseResult.parsedDict none → d.strat ≠ StrategyResult.criticalFailure →
      (processItem d).ok = true ∧
      (∀ r, (processItem d).record = some r → r.input_doi = "")) := by
  refine ⟨fun args st => rfl, ?_, ?_⟩
  · intro args st d h
    have hstep := stepItem_fail_fields args st d (by rw [processItem_inputError d h])
    by_cases hb : breakerTripped args (st.consecutive_item_failures + 1) = true
    · rw [hstep, if_pos hb]
      exact ⟨rfl, rfl, rfl, rfl, rfl, by simp [hb]⟩
    · rw [hstep, if_neg hb]
      exact ⟨rfl, rfl, rfl, rfl, rfl, by simp [hb]⟩
  · intro d s h1 h2 h3 h4
    cases hsr : d.strat with
    | criticalFailure => exact absurd hsr h4
    | noMatch =>
      refine ⟨by simp [processItem, h1, h2, h3, hsr], ?_⟩
      intro r hr
      simp [processItem, h1, h2, h3, hsr] at hr
      subst hr
      exact recordInputDoi_missing
    | matchList e =>
      cases e with
      | matchNonDict =>
        refine ⟨by simp [processItem, h1, h2, h3, hsr], ?_⟩
        intro r hr
        simp [processItem, h1, h2, h3, hsr] at hr
        subst hr
        exact recordInputDoi_missing
      | matchDict m =>
        cases hm : m.id with
        | none =>
          refine ⟨by simp [processItem, h1, h2, h3, hsr, hm], ?_⟩
          intro r hr
          simp [processItem, h1, h2, h3, hsr, hm] at hr
          subst hr
          exact recordInputDoi_missing
        | some url =>
          by_cases hu : url = ""
          · refine ⟨by simp [processItem, h1, h2, h3, hsr, hm, hu], ?_⟩
            intro r hr
            simp [processItem, h1, h2, h3, hsr, hm, hu] at hr
            subst hr
            exact recordInputDoi_missing
          · cases hx : extract_doi_from_url (some url) with
            | none =>
              refine ⟨by simp [processItem, h1, h2, h3, hsr, hm, hu, hx], ?_⟩
              intro r hr
              simp [processItem, h1, h2, h3, hsr, hm, hu, hx] at hr
              subst hr
              exact recordInputDoi_missing
            | some doi2 =>
              refine ⟨by simp [processItem, h1, h2, h3, hsr, hm, hu, hx], ?_⟩
              intro r hr
              simp [processItem, h1, h2, h3, hsr, hm, hu, hx] at hr
              subst hr
              exact recordInputDoi_missing

/-- C4 witness: the amended theorem instantiated at a non-dict item, at the
missing-input item, and at the missing-DOI item. -/
theorem c4_amended_input_errors_witness :
    stepItem ⟨Format.json, 10⟩ initState Item.itemNonDict = initState ∧
    (stepItem ⟨Format.json, 10⟩ initState (Item.itemDict exBadItem)).items_with_errors = 0 + 1 ∧
    (processItem exMissingDoiItem).ok = true := by
  refine ⟨c4_amended_input_errors.1 ⟨Format.json, 10⟩ initState, ?_, ?_⟩
  · exact (c4_amended_input_errors.2.1 ⟨Format.json, 10⟩ initState exBadItem (Or.inl rfl)).2.1
  · exact (c4_amended_input_errors.2.2 exMissingDoiItem "in2" rfl (by decide) rfl (by decide)).1

/-- C9: when the strategy returns a first match whose id URL yields no DOI
(extract_doi_from_url returns none), the item still succeeds: it emits a
record with empty matched_doi and empty confidence, is counted a success,
and the consecutive-failure counter is reset to 0. -/
theorem c9_unextractable_match_id (args : Args) (st : LoopState) (d : DictItem) (s : String)
    (x : Option String) (m : FirstMatch) (u : String)
    (h1 : d.input = some s) (h2 : s ≠ "") (h3 : d.parse = ParseResult.parsedDict x)
    (h4 : d.strat = StrategyResult.matchList (MatchElem.matchDict m))
    (h5 : m.id = some u) (h6 : u ≠ "") (h7 : extract_doi_from_url (some u) = none)
    (h8 : args.format = Format.json ∨ d.csv_write_fails = false) :
    (processItem d).ok = true ∧
    (processItem d).record = some ⟨recordInputDoi (inputDoiExtracted x), "", ""⟩ ∧
    (processItem d).matched = true ∧
    (stepItem args st (Item.itemDict d)).consecutive_item_failures = 0 ∧
    (stepItem args st (Item.itemDict d)).items_with_errors = st.items_with_errors := by
  have hok : processItem d = ⟨true, some ⟨recordInputDoi (inputDoiExtracted x), "", ""⟩, true⟩ := by
    simp [processItem, h1, h2, h3, h4, h5, h6, h7]
  have hfields := stepItem_ok_fields args st d (by rw [hok]) h8
  exact ⟨by rw [hok], by rw [hok], by rw [hok], hfields.1, hfields.2.2⟩

/-- C9 witness: the theorem instantiated at a concrete item whose match id
is https://example.com/foo, a URL from which no DOI can be extracted. -/
theorem c9_unextractable_match_id_witness :
    (processItem exNoDoiUrlItem).ok = true ∧
    (processItem exNoDoiUrlItem).record =
      some ⟨recordInputDoi (inputDoiExtracted (some "10.1/p")), "", ""⟩ ∧
    (stepItem ⟨Format.json, 10⟩ initState
      (Item.itemDict exNoDoiUrlItem)).consecutive_item_failures = 0 := by
  have h := c9_unextractable_match_id ⟨Format.json, 10⟩ initState exNoDoiUrlItem "in4"
    (some "10.1/p") ⟨some "https://example.com/foo", Confidence.num (8 / 10)⟩
    "https://example.com/foo" rfl (by decide) rfl rfl rfl (by decide) (by decide) (Or.inl rfl)
  exact ⟨h.1, h.2.1, h.2.2.2.1⟩

/-! ### The 4-decimal format always renders a parseable fixed-point number -/

theorem digitChar_isDigit (n : Nat) : (digitChar n).isDigit = true := by
  unfold digitChar
  split_ifs <;> decide

theorem natDigitsAux_all (fuel : Nat) : ∀ n, (natDigitsAux fuel n).all Char.isDigit = true := by
  induction fuel with
  | zero => intro n; rfl
  | succ fuel ih =>
    intro n
    simp only [natDigitsAux]
    split
    · simp [digitChar_isDigit]
    · simp [List.all_append, ih, digitChar_isDigit]

theorem natDigits_ne_nil (n : Nat) : natDigits n ≠ [] := by
  simp only [natDigits, natDigitsAux]
  split
  · simp
  · simp

theorem natDigits_all (n : Nat) : (natDigits n).all Char.isDigit = true :=
  natDigitsAux_all (n + 1) n

theorem frac4Digits_length (m : Nat) : (frac4Digits m).length = 4 := rfl

theorem frac4Digits_all (m : Nat) : (frac4Digits m).all Char.isDigit = true := by
  simp [frac4Digits, digitChar_isDigit]

theorem takeWhile_digits_split (p : Char → Bool) (x : Char) (hx : p x = false) :
    ∀ (a b : List Char), (∀ c ∈ a, p c = true) →
    (a ++ x :: b).takeWhile p = a ∧ (a ++ x :: b).dropWhile p = x :: b := by
  intro a
  induction a with
  | nil =>
    intro b _
    simp [List.takeWhile_cons, List.dropWhile_cons, hx]
  | cons c t ih =>
    intro b ha
    have hc : p c = true := ha c (by simp)
    have ht := ih b (fun c2 hc2 => ha c2 (List.mem_cons_of_mem _ hc2))
    simp only [List.cons_append, List.takeWhile_cons, List.dropWhile_cons, hc]
    simp only [if_true]
    exact ⟨by rw [ht.1], by rw [ht.2]⟩

theorem isFixed4Core_of (intPart f : List Char) (h1 : intPart ≠ [])
    (h2 : ∀ c ∈ intPart, c.isDigit = true) (h3 : f.length = 4)
    (h4 : f.all Char.isDigit = true) :
    isFixed4Core (intPart ++ '.' :: f) = true := by
  have hsplit := takeWhile_digits_split Char.isDigit '.' (by decide) intPart f h2
  simp only [isFixed4Core, hsplit.1, hsplit.2]
  simp [h1, h3, h4]

theorem formatFixed4_isFixed4 (q : ℚ) : isFixed4 (formatFixed4 q) = true := by
  simp only [formatFixed4]
  have hcore : isFixed4Core (natDigits ((roundHalfEven (q * 10000)).natAbs / 10000) ++
      '.' :: frac4Digits ((roundHalfEven (q * 10000)).natAbs % 10000)) = true :=
    isFixed4Core_of _ _ (natDigits_ne_nil _)
      (fun c hc => by
        have := natDigits_all ((roundHalfEven (q * 10000)).natAbs / 10000)
        rw [List.all_eq_true] at this
        exact this c hc)
      (frac4Digits_length _) (frac4Digits_all _)
  split
  · simp only [isFixed4]
    exact hcore
  · simp only [isFixed4]
    cases hnd : natDigits ((roundHalfEven (q * 10000)).natAbs / 10000) with
    | nil => exact absurd hnd (natDigits_ne_nil _)
    | cons c t =>
      have hcdig : c.isDigit = true := by
        have := natDigits_all ((roundHalfEven (q * 10000)).natAbs / 10000)
        rw [hnd, List.all_cons, Bool.and_eq_true] at this
        exact this.1
      have hcne : c ≠ '-' := by
        intro hc
        rw [hc] at hcdig
        exact absurd hcdig (by decide)
      rw [hnd] at hcore
      simp only [List.cons_append]
      split
      · next heq =>
        have hceq : c = '-' := by
          rw [List.cons.injEq] at heq
          exact heq.1
        exact absurd hceq hcne
      · exact hcore

/-! ### C5 -/

/-- C5 counterexample: an emitted record with non-empty matched_doi whose
confidence field is the string abc — not a parseable 4-decimal number —
because the strategy's confidence value was non-numeric and the driver
passes its str() image through unchanged. -/
theorem c5_counterexample :
    (process_match_items [Item.itemDict exStrConfItem] ⟨Format.json, 10⟩ false).json_file =
      some [⟨"10.1/p", "10.1/x", "abc"⟩] ∧
    isFixed4 "abc" = false := by
  decide

/-- C5 amended: every record emitted by process_match_items with empty
matched_doi has empty confidence; a record with non-empty matched_doi
carries the confidence string derived from the strategy's first match: the
4-decimal formatting (always a parseable fixed-point number) when the
confidence value is numeric, its str() image unchanged when it is present
and non-numeric, and the empty string when it is absent. -/
theorem c5_confidence_invariant :
    (∀ q : ℚ, isFixed4 (formatFixed4 q) = true) ∧
    (∀ (d : DictItem) (r : OutputRecord), (processItem d).record = some r →
      (r.matched_doi = "" → r.confidence = "") ∧
      (r.matched_doi ≠ "" → ∃ m, d.strat = StrategyResult.matchList (MatchElem.matchDict m) ∧
        r.confidence = confidenceStr m.confidence)) ∧
    (∀ (args : Args) (items : List Item) (r : OutputRecord),
      r ∈ (processLoop args initState items).all_results_json ∨
      r ∈ (processLoop args initState items).csv_rows →
      ∃ d, Item.itemDict d ∈ items ∧ (processItem d).record = some r) := by
  refine ⟨formatFixed4_isFixed4, ?_, ?_⟩
  · intro d r hrec
    cases hi : d.input with
    | none => simp [processItem, hi] at hrec
    | some str =>
      by_cases hs : str = ""
      · simp [processItem, hi, hs] at hrec
      · cases hp : d.parse with
        | decodeError => simp [processItem, hi, hs, hp] at hrec
        | parsedNonDict => simp [processItem, hi, hs, hp] at hrec
        | parsedDict doi =>
          cases hsr : d.strat with
          | criticalFailure => simp [processItem, hi, hs, hp, hsr] at hrec
          | noMatch =>
            simp [processItem, hi, hs, hp, hsr] at hrec
            subst hrec
            exact ⟨fun _ => rfl, fun h => absurd rfl h⟩
          | matchList e =>
            cases e with
            | matchNonDict =>
              simp [processItem, hi, hs, hp, hsr] at hrec
              subst hrec
              exact ⟨fun _ => rfl, fun h => absurd rfl h⟩
            | matchDict m =>
              cases hm : m.id with
              | none =>
                simp [processItem, hi, hs, hp, hsr, hm] at hrec
                subst hrec
                exact ⟨fun _ => rfl, fun h => absurd rfl h⟩
              | some url =>
                by_cases hu : url = ""
                · simp [processItem, hi, hs, hp, hsr, hm, hu] at hrec
                  subst hrec
                  exact ⟨fun _ => rfl, fun h => absurd rfl h⟩
                · cases hx : extract_doi_from_url (some url) with
                  | none =>
                    simp [processItem, hi, hs, hp, hsr, hm, hu, hx] at hrec
                    subst hrec
                    exact ⟨fun _ => rfl, fun h => absurd rfl h⟩
                  | some doi2 =>
                    simp [processItem, hi, hs, hp, hsr, hm, hu, hx] at hrec
                    subst hrec
                    refine ⟨fun h => absurd h (extract_ne_empty (some url) doi2 hx), ?_⟩
                    intro _
                    exact ⟨m, rfl, rfl⟩
  · intro args items r hr
    rcases hr with hr | hr
    · rcases (processLoop_channels args items initState).2.2.2 r hr with h | h
      · exact absurd h (by simp [initState])
      · exact h
    · rcases (processLoop_channels args items initState).2.2.1 r hr with h | h
      · exact absurd h (by simp [initState])
      · exact h

/-- C5 witness: the amended theorem instantiated at confidence 0.9 of the
concrete good item and at the singleton run producing its record. -/
theorem c5_confidence_invariant_witness :
    isFixed4 (formatFixed4 (9 / 10)) = true ∧
    (∃ m, exGoodItem.strat = StrategyResult.matchList (MatchElem.matchDict m) ∧
      (OutputRecord.mk "10.1/p" "10.1/x" "0.9000").confidence = confidenceStr m.confidence) ∧
    (∃ d, Item.itemDict d ∈ [Item.itemDict exGoodItem] ∧
      (processItem d).record = some ⟨"10.1/p", "10.1/x", "0.9000"⟩) := by
  refine ⟨c5_confidence_invariant.1 (9 / 10), ?_, ?_⟩
  · exact (c5_confidence_invariant.2.1 exGoodItem ⟨"10.1/p", "10.1/x", "0.9000"⟩
      (by decide)).2 (by decide)
  · exact c5_confidence_invariant.2.2 ⟨Format.json, 10⟩ [Item.itemDict exGoodItem]
      ⟨"10.1/p", "10.1/x", "0.9000"⟩ (Or.inl (by decide))

/-! ### Lemmas about pyGet on association lists -/

theorem pyGet_eq_none {β : Type} (l : List (String × β)) (k : String)
    (h : k ∉ l.map Prod.fst) : pyGet l k = none := by
  induction l with
  | nil => rfl
  | cons kv t ih =>
    simp only [List.map_cons, List.mem_cons, not_or] at h
    simp only [pyGet]
    rw [if_neg (fun he => h.1 he.symm)]
    exact ih h.2

theorem pyGet_mem {β : Type} (l : List (String × β)) (k : String) (v : β)
    (h : pyGet l k = some v) : (k, v) ∈ l := by
  induction l with
  | nil => simp [pyGet] at h
  | cons kv t ih =>
    simp only [pyGet] at h
    split at h
    · next he =>
      rw [Option.some.injEq] at h
      subst h
      exact List.mem_cons.mpr (Or.inl (by rw [Prod.ext_iff]; exact ⟨he.symm, rfl⟩))
    · exact List.mem_cons_of_mem _ (ih h)

theorem nodupKeys_unique {β : Type} (l : List (String × β)) (nd : (l.map Prod.fst).Nodup) :
    ∀ (k : String) (v w : β), (k, v) ∈ l → (k, w) ∈ l → v = w := by
  induction l with
  | nil => intro k v w hv _; simp at hv
  | cons kv t ih =>
    obtain ⟨a, b⟩ := kv
    simp only [List.map_cons, List.nodup_cons] at nd
    intro k v w hv hw
    rcases List.mem_cons.mp hv with hv1 | hv1 <;> rcases List.mem_cons.mp hw with hw1 | hw1
    · simp only [Prod.mk.injEq] at hv1 hw1
      rw [hv1.2, hw1.2]
    · simp only [Prod.mk.injEq] at hv1
      exact absurd (List.mem_map.mpr ⟨(k, w), hw1, hv1.1⟩) nd.1
    · simp only [Prod.mk.injEq] at hw1
      exact absurd (List.mem_map.mpr ⟨(k, v), hv1, hw1.1⟩) nd.1
    · exact ih nd.2 k v w hv1 hw1

theorem pyGet_of_mem {β : Type} (l : List (String × β)) (nd : (l.map Prod.fst).Nodup)
    (k : String) (v : β) (h : (k, v) ∈ l) : pyGet l k = some v := by
  induction l with
  | nil => simp at h
  | cons kv t ih =>
    obtain ⟨a, b⟩ := kv
    simp only [List.map_cons, List.nodup_cons] at nd
    rcases List.mem_cons.mp h with h1 | h1
    · simp only [Prod.mk.injEq] at h1
      simp only [pyGet]
      rw [if_pos h1.1.symm, h1.2]
    · simp only [pyGet]
      by_cases ha : a = k
      · subst ha
        exact absurd (List.mem_map.mpr ⟨(a, v), h1, rfl⟩) nd.1
      · rw [if_neg ha]
        exact ih nd.2 h1

theorem pyGet_none_not_mem {β : Type} (l : List (String × β)) (k : String)
    (h : pyGet l k = none) : k ∉ l.map Prod.fst := by
  induction l with
  | nil => simp
  | cons kv t ih =>
    simp only [pyGet] at h
    split at h
    · simp at h
    · next hne =>
      simp only [List.map_cons, List.mem_cons, not_or]
      exact ⟨fun he => hne he.symm, ih h⟩

theorem pyGet_perm {β : Type} (l1 l2 : List (String × β)) (hp : l1.Perm l2)
    (nd : (l1.map Prod.fst).Nodup) (k : String) : pyGet l1 k = pyGet l2 k := by
  have nd2 : (l2.map Prod.fst).Nodup := ((hp.map Prod.fst).nodup_iff).mp nd
  cases hg : pyGet l1 k with
  | some v => rw [pyGet_of_mem l2 nd2 k v (hp.mem_iff.mp (pyGet_mem l1 k v hg))]
  | none =>
    rw [pyGet_eq_none l2 k
      (fun hm => pyGet_none_not_mem l1 k hg (((hp.map Prod.fst).mem_iff).mpr hm))]

theorem pyGet_filter {β : Type} (l : List (String × β)) (nd : (l.map Prod.fst).Nodup)
    (f : String × β → Bool) (k : String) (v : β) (h : (k, v) ∈ l) :
    pyGet (l.filter f) k = if f (k, v) = true then some v else none := by
  by_cases hf : f (k, v) = true
  · rw [if_pos hf]
    exact pyGet_of_mem (l.filter f)
      (List.Nodup.sublist (List.Sublist.map Prod.fst (List.filter_sublist l)) nd) k v
      (List.mem_filter.mpr ⟨h, hf⟩)
  · rw [if_neg hf]
    apply pyGet_eq_none
    intro hm
    obtain ⟨⟨k2, w⟩, hw, he⟩ := List.mem_map.mp hm
    obtain ⟨hw1, hw2⟩ := List.mem_filter.mp hw
    cases he
    exact hf (by rw [show v = w from nodupKeys_unique l nd _ v w h hw1]; exact hw2)

/-- The central counting bridge: a per-key classifier of the metrics loop,
counted over a duplicate-free key list covering the union of the two maps'
keys, counts exactly the reference entries it accepts, provided it rejects
keys with no positive reference entry. -/
theorem countP_keys_eq_filter_ref
    (ref : List (String × List String)) (test : List (String × Option String))
    (c : Option (List String) → Option (Option String) → Bool)
    (hc : ∀ t, c none t = false)
    (ndref : (ref.map Prod.fst).Nodup)
    (L : List String) (hLnd : L.Nodup)
    (hmem : ∀ k, k ∈ L ↔ (k ∈ ref.map Prod.fst ∨ k ∈ test.map Prod.fst)) :
    L.countP (fun k => c (pyGet (ref.filter (fun kv => !kv.2.isEmpty)) k) (pyGet test k)) =
    (ref.filter (fun kv => !kv.2.isEmpty && c (some kv.2) (pyGet test kv.1))).length := by
  have key : ∀ (k : String) (v : List String), (k, v) ∈ ref →
      c (pyGet (ref.filter (fun kv => !kv.2.isEmpty)) k) (pyGet test k) =
        (!v.isEmpty && c (some v) (pyGet test k)) := by
    intro k v hkv
    have hpg := pyGet_filter ref ndref (fun kv => !kv.2.isEmpty) k v hkv
    by_cases he : v.isEmpty = true
    · rw [show pyGet (ref.filter (fun kv => !kv.2.isEmpty)) k = none from by
        rw [hpg, if_neg (by simp [he])]]
      simp [he, hc]
    · rw [show pyGet (ref.filter (fun kv => !kv.2.isEmpty)) k = some v from by
        rw [hpg, if_pos (by simp [he])]]
      simp [he]
  have hmem2 : ∀ x, x ∈ L.filter
      (fun k => c (pyGet (ref.filter (fun kv => !kv.2.isEmpty)) k) (pyGet test k)) ↔
      x ∈ (ref.filter (fun kv => !kv.2.isEmpty && c (some kv.2) (pyGet test kv.1))).map Prod.fst := by
    intro x
    constructor
    · intro hx
      obtain ⟨hxL, hpx⟩ := List.mem_filter.mp hx
      have hxref : x ∈ ref.map Prod.fst := by
        by_contra hxr
        have hnone : pyGet (ref.filter (fun kv => !kv.2.isEmpty)) x = none := by
          apply pyGet_eq_none
          intro hm
          obtain ⟨kv2, hkv2, he⟩ := List.mem_map.mp hm
          exact hxr (List.mem_map.mpr ⟨kv2, (List.mem_filter.mp hkv2).1, he⟩)
        rw [hnone, hc] at hpx
        exact Bool.false_ne_true hpx
      obtain ⟨⟨k2, v⟩, hkv, he⟩ := List.mem_map.mp hxref
      cases he
      refine List.mem_map.mpr ⟨(k2, v), List.mem_filter.mpr ⟨hkv, ?_⟩, rfl⟩
      rw [← key k2 v hkv]
      exact hpx
    · intro hx
      obtain ⟨⟨k2, v⟩, hkv, he⟩ := List.mem_map.mp hx
      obtain ⟨hin, hqv⟩ := List.mem_filter.mp hkv
      cases he
      refine List.mem_filter.mpr ⟨?_, ?_⟩
      · exact (hmem k2).mpr (Or.inl (List.mem_map.mpr ⟨(k2, v), hin, rfl⟩))
      · rw [key k2 v hin]
        exact hqv
  have hnd1 : (L.filter
      (fun k => c (pyGet (ref.filter (fun kv => !kv.2.isEmpty)) k) (pyGet test k))).Nodup :=
    List.Nodup.sublist (List.filter_sublist L) hLnd
  have hnd2 : ((ref.filter
      (fun kv => !kv.2.isEmpty && c (some kv.2) (pyGet test kv.1))).map Prod.fst).Nodup :=
    List.Nodup.sublist (List.Sublist.map Prod.fst (List.filter_sublist ref)) ndref
  rw [List.countP_eq_length_filter,
    ((List.perm_ext_iff_of_nodup hnd1 hnd2).mpr hmem2).length_eq, List.length_map]

/-! ### Counting characterization of the calculate_metrics loop -/

theorem stepKey_counts (g1 : String → Option (List String))
    (g2 : String → Option (Option String)) (st : TallyState) (k : String) :
    (stepKey g1 g2 st k).tp =
      st.tp + (if cTP (g1 (pyStripLower k)) (g2 (pyStripLower k)) then 1 else 0) ∧
    (stepKey g1 g2 st k).fn =
      st.fn + (if cFN (g1 (pyStripLower k)) (g2 (pyStripLower k)) then 1 else 0) ∧
    (stepKey g1 g2 st k).detailed_results.map DetailRecord.input_doi =
      st.detailed_results.map DetailRecord.input_doi ++
        (if hasStatusKey g1 g2 k then [pyStripLower k] else []) := by
  simp only [stepKey, cTP, cFN, hasStatusKey]
  by_cases hp : predTruthy ((g2 (pyStripLower k)).bind id) = true
  · by_cases hr : refTruthy (g1 (pyStripLower k)) = true
    · by_cases hco : ((g1 (pyStripLower k)).getD []).contains
          (((g2 (pyStripLower k)).bind id).getD "") = true
      · simp_all
      · simp_all
    · simp_all
  · by_cases hr : refTruthy (g1 (pyStripLower k)) = true
    · simp_all
    · simp_all

theorem foldl_stepKey_counts (g1 : String → Option (List String))
    (g2 : String → Option (Option String)) (L : List String) : ∀ st : TallyState,
    (L.foldl (stepKey g1 g2) st).tp =
      st.tp + L.countP (fun k => cTP (g1 (pyStripLower k)) (g2 (pyStripLower k))) ∧
    (L.foldl (stepKey g1 g2) st).fn =
      st.fn + L.countP (fun k => cFN (g1 (pyStripLower k)) (g2 (pyStripLower k))) ∧
    (L.foldl (stepKey g1 g2) st).detailed_results.map DetailRecord.input_doi =
      st.detailed_results.map DetailRecord.input_doi ++
        (L.filter (hasStatusKey g1 g2)).map (fun k => pyStripLower k) := by
  induction L with
  | nil => intro st; simp
  | cons k t ih =>
    intro st
    simp only [List.foldl_cons, List.countP_cons, List.filter_cons]
    obtain ⟨e1, e2, e3⟩ := stepKey_counts g1 g2 st k
    obtain ⟨f1, f2, f3⟩ := ih (stepKey g1 g2 st k)
    refine ⟨?_, ?_, ?_⟩
    · rw [f1, e1]
      by_cases h : cTP (g1 (pyStripLower k)) (g2 (pyStripLower k)) = true <;> simp [h] <;> omega
    · rw [f2, e2]
      by_cases h : cFN (g1 (pyStripLower k)) (g2 (pyStripLower k)) = true <;> simp [h] <;> omega
    · rw [f3, e3]
      by_cases h : hasStatusKey g1 g2 k = true <;> simp [h]

theorem countP_partition_ref (test : List (String × Option String))
    (l : List (String × List String)) :
    (l.filter (fun kv => !kv.2.isEmpty && cTP (some kv.2) (pyGet test kv.1))).length +
    (l.filter (fun kv => !kv.2.isEmpty && cFN (some kv.2) (pyGet test kv.1))).length +
    (l.filter (fun kv => !kv.2.isEmpty && cW (some kv.2) (pyGet test kv.1))).length =
    (l.filter (fun kv => !kv.2.isEmpty)).length := by
  have hpt : ∀ kv : String × List String,
      (if (!kv.2.isEmpty && cTP (some kv.2) (pyGet test kv.1)) = true then 1 else 0) +
      (if (!kv.2.isEmpty && cFN (some kv.2) (pyGet test kv.1)) = true then 1 else 0) +
      (if (!kv.2.isEmpty && cW (some kv.2) (pyGet test kv.1)) = true then 1 else 0) =
      (if (!kv.2.isEmpty) = true then 1 else 0) := by
    intro kv
    obtain ⟨a, v⟩ := kv
    simp only [cTP, cFN, cW, refTruthy, Option.getD_some]
    by_cases he : v.isEmpty = true <;>
      by_cases hp : predTruthy ((pyGet test a).bind id) = true <;>
        by_cases hco : v.contains (((pyGet test a).bind id).getD "") = true <;>
          simp_all
  rw [← List.countP_eq_length_filter, ← List.countP_eq_length_filter,
    ← List.countP_eq_length_filter, ← List.countP_eq_length_filter]
  induction l with
  | nil => rfl
  | cons kv t ih =>
    simp only [List.countP_cons]
    have := hpt kv
    omega

theorem wrongPredOnRef_eq_filter (ref : List (String × List String))
    (test : List (String × Option String)) :
    wrongPredOnRef ref test =
      (ref.filter (fun kv => !kv.2.isEmpty && cW (some kv.2) (pyGet test kv.1))).length := by
  unfold wrongPredOnRef
  congr 1
  apply List.filter_congr
  intro kv _
  simp only [cW, predictedOf, refTruthy, Option.getD_some]
  obtain ⟨a, v⟩ := kv
  by_cases he : v.isEmpty = true <;>
    by_cases hp : predTruthy ((pyGet test a).bind id) = true <;>
      by_cases hco : v.contains (((pyGet test a).bind id).getD "") = true <;>
        simp_all

/-! ### C1 -/

/-- C1 counterexample: a reference map with two referenced inputs, one
predicted correctly (TP) and one predicted wrongly (FP). The code reports
TP=1, FN=0, yet Recall = 1/2, not TP/(TP+FN) = 1: the wrong prediction on a
referenced input enlarges the Recall denominator beyond TP+FN. -/
theorem c1_counterexample :
    (calculate_metrics [("10.1/a", ["10.1/x"]), ("10.1/b", ["10.1/y"])]
        [("10.1/a", some "10.1/x"), ("10.1/b", some "10.1/z")]).1.TP = 1 ∧
    (calculate_metrics [("10.1/a", ["10.1/x"]), ("10.1/b", ["10.1/y"])]
        [("10.1/a", some "10.1/x"), ("10.1/b", some "10.1/z")]).1.FN = 0 ∧
    (calculate_metrics [("10.1/a", ["10.1/x"]), ("10.1/b", ["10.1/y"])]
        [("10.1/a", some "10.1/x"), ("10.1/b", some "10.1/z")]).1.Recall = 1 / 2 ∧
    (calculate_metrics [("10.1/a", ["10.1/x"]), ("10.1/b", ["10.1/y"])]
        [("10.1/a", some "10.1/x"), ("10.1/b", some "10.1/z")]).1.Recall ≠
      (((calculate_metrics [("10.1/a", ["10.1/x"]), ("10.1/b", ["10.1/y"])]
        [("10.1/a", some "10.1/x"), ("10.1/b", some "10.1/z")]).1.TP : ℚ) /
       (((calculate_metrics [("10.1/a", ["10.1/x"]), ("10.1/b", ["10.1/y"])]
        [("10.1/a", some "10.1/x"), ("10.1/b", some "10.1/z")]).1.TP : ℚ) +
        ((calculate_metrics [("10.1/a", ["10.1/x"]), ("10.1/b", ["10.1/y"])]
        [("10.1/a", some "10.1/x"), ("10.1/b", some "10.1/z")]).1.FN : ℚ))) := by
  decide

/-- C1 amended: the Recall denominator of calculate_metrics is the number
of inputs with a non-empty reference set. This exceeds TP+FN exactly by the
number of referenced inputs whose prediction exists but is wrong (counted
FP): TP + FN + wrongPredOnRef = PositiveReferences, and Recall is
TP/PositiveReferences (0 when there are no positive references), so a wrong
prediction on a referenced input does enlarge the Recall denominator beyond
TP+FN. Stated for maps with duplicate-free, already-normalized keys, which
the loaders guarantee. -/
theorem c1_recall_denominator (ref : List (String × List String))
    (test : List (String × Option String))
    (ndref : (ref.map Prod.fst).Nodup)
    (hnorm : ∀ k ∈ ref.map Prod.fst ++ test.map Prod.fst, pyStripLower k = k) :
    (calculate_metrics ref test).1.TP + (calculate_metrics ref test).1.FN +
      wrongPredOnRef ref test = positiveRefCount ref ∧
    (calculate_metrics ref test).1.PositiveReferences = positiveRefCount ref ∧
    (calculate_metrics ref test).1.Recall =
      (if positiveRefCount ref = 0 then 0
       else ((calculate_metrics ref test).1.TP : ℚ) / (positiveRefCount ref : ℚ)) := by
  have hLperm := List.perm_insertionSort strLeR ((ref.map Prod.fst ++ test.map Prod.fst).dedup)
  have hLnd : (List.insertionSort strLeR ((ref.map Prod.fst ++ test.map Prod.fst).dedup)).Nodup :=
    (hLperm.nodup_iff).mpr (List.nodup_dedup _)
  have hLmem : ∀ k, k ∈ List.insertionSort strLeR ((ref.map Prod.fst ++ test.map Prod.fst).dedup) ↔
      (k ∈ ref.map Prod.fst ∨ k ∈ test.map Prod.fst) := by
    intro k
    rw [hLperm.mem_iff, List.mem_dedup, List.mem_append]
  have hnormL : ∀ k ∈ List.insertionSort strLeR ((ref.map Prod.fst ++ test.map Prod.fst).dedup),
      pyStripLower k = k := by
    intro k hk
    exact hnorm k (List.mem_append.mpr ((hLmem k).mp hk))
  have hTP : (calculate_metrics ref test).1.TP =
      (ref.filter (fun kv => !kv.2.isEmpty && cTP (some kv.2) (pyGet test kv.1))).length := by
    have hshow : (calculate_metrics ref test).1.TP =
        ((List.insertionSort strLeR ((ref.map Prod.fst ++ test.map Prod.fst).dedup)).foldl
          (stepKey (pyGet (ref.filter (fun kv => !kv.2.isEmpty))) (pyGet test))
          ⟨0, 0, 0, 0, []⟩).tp := rfl
    have hcong : (List.insertionSort strLeR ((ref.map Prod.fst ++ test.map Prod.fst).dedup)).countP
        (fun k => cTP (pyGet (ref.filter (fun kv => !kv.2.isEmpty)) (pyStripLower k))
          (pyGet test (pyStripLower k))) =
      (List.insertionSort strLeR ((ref.map Prod.fst ++ test.map Prod.fst).dedup)).countP
        (fun k => cTP (pyGet (ref.filter (fun kv => !kv.2.isEmpty)) k) (pyGet test k)) :=
      List.countP_congr (fun k hk => by rw [hnormL k hk])
    rw [hshow, (foldl_stepKey_counts (pyGet (ref.filter (fun kv => !kv.2.isEmpty))) (pyGet test)
        (List.insertionSort strLeR ((ref.map Prod.fst ++ test.map Prod.fst).dedup))
        ⟨0, 0, 0, 0, []⟩).1, hcong,
      countP_keys_eq_filter_ref ref test cTP (by intro t; simp [cTP, refTruthy]) ndref _ hLnd hLmem]
    exact Nat.zero_add _
  have hFN : (calculate_metrics ref test).1.FN =
      (ref.filter (fun kv => !kv.2.isEmpty && cFN (some kv.2) (pyGet test kv.1))).length := by
    have hshow : (calculate_metrics ref test).1.FN =
        ((List.insertionSort strLeR ((ref.map Prod.fst ++ test.map Prod.fst).dedup)).foldl
          (stepKey (pyGet (ref.filter (fun kv => !kv.2.isEmpty))) (pyGet test))
          ⟨0, 0, 0, 0, []⟩).fn := rfl
    have hcong : (List.insertionSort strLeR ((ref.map Prod.fst ++ test.map Prod.fst).dedup)).countP
        (fun k => cFN (pyGet (ref.filter (fun kv => !kv.2.isEmpty)) (pyStripLower k))
          (pyGet test (pyStripLower k))) =
      (List.insertionSort strLeR ((ref.map Prod.fst ++ test.map Prod.fst).dedup)).countP
        (fun k => cFN (pyGet (ref.filter (fun kv => !kv.2.isEmpty)) k) (pyGet test k)) :=
      List.countP_congr (fun k hk => by rw [hnormL k hk])
    rw [hshow, (foldl_stepKey_counts (pyGet (ref.filter (fun kv => !kv.2.isEmpty))) (pyGet test)
        (List.insertionSort strLeR ((ref.map Prod.fst ++ test.map Prod.fst).dedup))
        ⟨0, 0, 0, 0, []⟩).2.1, hcong,
      countP_keys_eq_filter_ref ref test cFN (by intro t; simp [cFN, refTruthy]) ndref _ hLnd hLmem]
    exact Nat.zero_add _
  refine ⟨?_, rfl, ?_⟩
  · rw [hTP, hFN, wrongPredOnRef_eq_filter]
    exact countP_partition_ref test ref
  · have hrec : (calculate_metrics ref test).1.Recall =
        (if positiveRefCount ref > 0
         then ((calculate_metrics ref test).1.TP : ℚ) / (positiveRefCount ref : ℚ) else 0) := rfl
    rw [hrec]
    by_cases h : positiveRefCount ref = 0
    · rw [if_neg (by omega), if_pos h]
    · rw [if_pos (by omega), if_neg h]

/-- C1 witness: the amended theorem instantiated at the counterexample
maps. -/
theorem c1_recall_denominator_witness :
    (calculate_metrics [("10.1/a", ["10.1/x"]), ("10.1/b", ["10.1/y"])]
        [("10.1/a", some "10.1/x"), ("10.1/b", some "10.1/z")]).1.TP +
      (calculate_metrics [("10.1/a", ["10.1/x"]), ("10.1/b", ["10.1/y"])]
        [("10.1/a", some "10.1/x"), ("10.1/b", some "10.1/z")]).1.FN +
      wrongPredOnRef [("10.1/a", ["10.1/x"]), ("10.1/b", ["10.1/y"])]
        [("10.1/a", some "10.1/x"), ("10.1/b", some "10.1/z")] =
      positiveRefCount [("10.1/a", ["10.1/x"]), ("10.1/b", ["10.1/y"])] :=
  (c1_recall_denominator [("10.1/a", ["10.1/x"]), ("10.1/b", ["10.1/y"])]
    [("10.1/a", some "10.1/x"), ("10.1/b", some "10.1/z")] (by decide) (by decide)).1

/-! ### C10 -/

/-- C10 counterexample: with a reference key that is not fixed by the
strip-lowercase normalization (the capital B), the detailed-results list
comes out with input DOIs b, a, b — not sorted ascending (and with a
duplicate), because the loop iterates over the raw keys in sorted order but
records their normalized forms. -/
theorem c10_counterexample :
    ((calculate_metrics [("B", ["x"])] [("b", some "z"), ("a", some "w")]).2.map
      DetailRecord.input_doi) = ["b", "a", "b"] ∧
    ¬ List.Sorted strLeR ["b", "a", "b"] := by
  constructor
  · decide
  · intro h
    have := List.rel_of_sorted_cons h "a" (by simp)
    exact absurd this (by decide)

/-- C10 amended: calculate_metrics is deterministic with respect to the
contents of its two maps — permuting the entries of either map (with
duplicate-free keys) yields identical metrics and identical detailed
results; and the detailed-results list is sorted ascending by input DOI
whenever the keys of both maps are fixed by the strip-lowercase
normalization (as the loaders guarantee) — though not for arbitrary
unnormalized keys. -/
theorem c10_determinism_and_sorted_details :
    (∀ (ref1 ref2 : List (String × List String)) (test1 test2 : List (String × Option String)),
      ref1.Perm ref2 → test1.Perm test2 →
      (ref1.map Prod.fst).Nodup → (test1.map Prod.fst).Nodup →
      calculate_metrics ref1 test1 = calculate_metrics ref2 test2) ∧
    (∀ (ref : List (String × List String)) (test : List (String × Option String)),
      (∀ k ∈ ref.map Prod.fst ++ test.map Prod.fst, pyStripLower k = k) →
      List.Sorted strLeR (((calculate_metrics ref test).2).map DetailRecord.input_doi)) := by
  constructor
  · intro ref1 ref2 test1 test2 hr ht nd1 nd2
    have hKperm : ((ref1.map Prod.fst ++ test1.map Prod.fst).dedup).Perm
        ((ref2.map Prod.fst ++ test2.map Prod.fst).dedup) :=
      ((hr.map Prod.fst).append (ht.map Prod.fst)).dedup
    have hLeq : List.insertionSort strLeR ((ref1.map Prod.fst ++ test1.map Prod.fst).dedup) =
        List.insertionSort strLeR ((ref2.map Prod.fst ++ test2.map Prod.fst).dedup) :=
      List.eq_of_perm_of_sorted
        ((List.perm_insertionSort _ _).trans (hKperm.trans (List.perm_insertionSort _ _).symm))
        (List.sorted_insertionSort _ _) (List.sorted_insertionSort _ _)
    have hposperm : (ref1.filter (fun kv => !kv.2.isEmpty)).Perm
        (ref2.filter (fun kv => !kv.2.isEmpty)) := hr.filter _
    have hposnd : ((ref1.filter (fun kv => !kv.2.isEmpty)).map Prod.fst).Nodup :=
      List.Nodup.sublist (List.Sublist.map Prod.fst (List.filter_sublist ref1)) nd1
    have hg1 : ∀ x, pyGet (ref1.filter (fun kv => !kv.2.isEmpty)) x =
        pyGet (ref2.filter (fun kv => !kv.2.isEmpty)) x :=
      pyGet_perm _ _ hposperm hposnd
    have hg2 : ∀ x, pyGet test1 x = pyGet test2 x := pyGet_perm _ _ ht nd2
    have hlen : (ref1.filter (fun kv => !kv.2.isEmpty)).length =
        (ref2.filter (fun kv => !kv.2.isEmpty)).length := hposperm.length_eq
    have hstep : ∀ (st : TallyState) (k : String),
        stepKey (pyGet (ref1.filter (fun kv => !kv.2.isEmpty))) (pyGet test1) st k =
        stepKey (pyGet (ref2.filter (fun kv => !kv.2.isEmpty))) (pyGet test2) st k := by
      intro st k
      simp only [stepKey, hg1, hg2]
    have hfold : ∀ (L : List String) (st : TallyState),
        L.foldl (stepKey (pyGet (ref1.filter (fun kv => !kv.2.isEmpty))) (pyGet test1)) st =
        L.foldl (stepKey (pyGet (ref2.filter (fun kv => !kv.2.isEmpty))) (pyGet test2)) st := by
      intro L
      induction L with
      | nil => intro st; rfl
      | cons k t ih =>
        intro st
        simp only [List.foldl_cons, hstep, ih]
    have hstate : (List.insertionSort strLeR
          ((ref2.map Prod.fst ++ test2.map Prod.fst).dedup)).foldl
        (stepKey (pyGet (ref1.filter (fun kv => !kv.2.isEmpty))) (pyGet test1)) ⟨0, 0, 0, 0, []⟩ =
        (List.insertionSort strLeR ((ref2.map Prod.fst ++ test2.map Prod.fst).dedup)).foldl
        (stepKey (pyGet (ref2.filter (fun kv => !kv.2.isEmpty))) (pyGet test2)) ⟨0, 0, 0, 0, []⟩ :=
      hfold _ _
    simp only [calculate_metrics]
    rw [hLeq, hstate, hlen]
  · intro ref test hnorm
    have hLperm := List.perm_insertionSort strLeR ((ref.map Prod.fst ++ test.map Prod.fst).dedup)
    have hdet : (calculate_metrics ref test).2.map DetailRecord.input_doi =
        ((List.insertionSort strLeR ((ref.map Prod.fst ++ test.map Prod.fst).dedup)).filter
          (hasStatusKey (pyGet (ref.filter (fun kv => !kv.2.isEmpty))) (pyGet test))).map
          (fun k => pyStripLower k) := by
      have hshow : (calculate_metrics ref test).2 =
          ((List.insertionSort strLeR ((ref.map Prod.fst ++ test.map Prod.fst).dedup)).foldl
            (stepKey (pyGet (ref.filter (fun kv => !kv.2.isEmpty))) (pyGet test))
            ⟨0, 0, 0, 0, []⟩).detailed_results := rfl
      rw [hshow, (foldl_stepKey_counts (pyGet (ref.filter (fun kv => !kv.2.isEmpty))) (pyGet test)
        (List.insertionSort strLeR ((ref.map Prod.fst ++ test.map Prod.fst).dedup))
        ⟨0, 0, 0, 0, []⟩).2.2]
      rfl
    rw [hdet]
    have hmapid : ((List.insertionSort strLeR ((ref.map Prod.fst ++ test.map Prod.fst).dedup)).filter
        (hasStatusKey (pyGet (ref.filter (fun kv => !kv.2.isEmpty))) (pyGet test))).map
        (fun k => pyStripLower k) =
        (List.insertionSort strLeR ((ref.map Prod.fst ++ test.map Prod.fst).dedup)).filter
        (hasStatusKey (pyGet (ref.filter (fun kv => !kv.2.isEmpty))) (pyGet test)) := by
      have := List.map_congr_left (l := (List.insertionSort strLeR
          ((ref.map Prod.fst ++ test.map Prod.fst).dedup)).filter
          (hasStatusKey (pyGet (ref.filter (fun kv => !kv.2.isEmpty))) (pyGet test)))
        (f := fun k => pyStripLower k) (g := id)
        (fun a ha => hnorm a (by
          have := hLperm.mem_iff.mp ((List.filter_sublist _).subset ha)
          rw [List.mem_dedup] at this
          exact this))
      rw [this, List.map_id]
    rw [hmapid]
    exact List.Pairwise.sublist (List.filter_sublist _) (List.sorted_insertionSort strLeR _)

/-- C10 witness: the amended theorem applied to a transposition of a
two-entry reference map and to the sortedness of a concrete run with
normalized keys. -/
theorem c10_determinism_and_sorted_details_witness :
    calculate_metrics [("10.1/b", ["10.1/y"]), ("10.1/a", ["10.1/x"])]
        [("10.1/a", some "10.1/x")] =
      calculate_metrics [("10.1/a", ["10.1/x"]), ("10.1/b", ["10.1/y"])]
        [("10.1/a", some "10.1/x")] ∧
    List.Sorted strLeR (((calculate_metrics [("10.1/b", ["10.1/y"]), ("10.1/a", ["10.1/x"])]
        [("10.1/a", some "10.1/x")]).2).map DetailRecord.input_doi) := by
  constructor
  · exact c10_determinism_and_sorted_details.1 _ _ _ _
      (List.Perm.swap ("10.1/a", ["10.1/x"]) ("10.1/b", ["10.1/y"]) [])
      (List.Perm.refl _) (by decide) (by decide)
  · exact c10_determinism_and_sorted_details.2
      [("10.1/b", ["10.1/y"]), ("10.1/a", ["10.1/x"])] [("10.1/a", some "10.1/x")] (by decide)

end CrossrefMatch
